import Mathlib

/-!
Verification of the header-to-schema generator (`generate_capnp.py`).

The development shallowly embeds the generator:
* Python strings become `String`, operating on `List Char` data;
* clang `TypeKind` values become the inductive `TypeKind`;
* the two global dictionaries (`discovered_classes`, `discovered_optionals`)
  become association lists inside the `Store` structure, with Python-dict
  lookup/assignment semantics (`dlookup` / `dinsert`);
* the classifier `map_field_type_to_capnp`, the walker
  (`process_class` / `parse_headers_in_directory`) and the emitter
  (`generate_capnp_file`) become the functions below, mirroring the
  source's control flow branch for branch.
-/

namespace CapnpGen

/-! ## Python string primitives -/

/-- Is `needle` a leading segment of `hay`?  (building block for Python's
substring containment test `needle in hay`). -/
def startsW : List Char → List Char → Bool
  | [], _ => true
  | _ :: _, [] => false
  | n :: ns, h :: hs => n == h && startsW ns hs

/-- Python's substring test `needle in hay` over the character lists. -/
def hasSub (needle : List Char) : List Char → Bool
  | [] => startsW needle []
  | h :: hs => startsW needle (h :: hs) || hasSub needle hs

/-- Python `needle in hay` on strings. -/
def strContains (hay needle : String) : Bool :=
  hasSub needle.data hay.data

/-- Python `hay.find(c)`: index of first occurrence, `-1` when absent. -/
def pyFind (s : String) (c : Char) : Int :=
  match s.data.findIdx? (fun x => x == c) with
  | some i => (i : Int)
  | none => -1

/-- Python `hay.rfind(c)`: index of last occurrence, `-1` when absent. -/
def pyRFind (s : String) (c : Char) : Int :=
  match s.data.reverse.findIdx? (fun x => x == c) with
  | some i => ((s.data.length - 1 - i : Nat) : Int)
  | none => -1

/-- Python slice `s[a:b]` for nonnegative bounds (clamping semantics). -/
def pySlice (s : String) (a b : Nat) : String :=
  String.mk ((s.data.drop a).take (b - a))

/-- The whitespace characters removed by Python's `str.strip()`. -/
def isPySpace (c : Char) : Bool :=
  c == ' ' || c == '\t' || c == '\n' || c == '\r' || c == '\x0b' || c == '\x0c'

/-- Python `s.strip()`. -/
def pyStrip (s : String) : String :=
  String.mk (((s.data.dropWhile isPySpace).reverse.dropWhile isPySpace).reverse)

/-- Python `s.lower()` (code-point map; coincides with Python on ASCII). -/
def pyLower (s : String) : String :=
  String.mk (s.data.map Char.toLower)

/-- Lexicographic `≤` on character lists by code point: the order Python's
`sorted` uses on strings. -/
def lexLe : List Char → List Char → Bool
  | [], _ => true
  | _ :: _, [] => false
  | a :: as, b :: bs => if a < b then true else if a = b then lexLe as bs else false

/-- Python's string `≤` as a proposition (kernel-reducible). -/
def strLeP (a b : String) : Prop := lexLe a.data b.data = true

instance : DecidableRel strLeP := fun a b =>
  inferInstanceAs (Decidable (lexLe a.data b.data = true))

/-! ## Data model: clang-facing input types -/

/-- The clang `TypeKind` values the generator distinguishes. -/
inductive TypeKind where
  | INT | LONG | SHORT | UINT | ULONG | USHORT
  | LONGLONG | ULONGLONG | FLOAT | DOUBLE | BOOL
  | RECORD | OTHER
  deriving DecidableEq, Repr

/-- A clang field type as the generator sees it: a spelling and a kind. -/
structure FieldType where
  spelling : String
  kind : TypeKind
  deriving DecidableEq, Repr

/-- A child cursor of a class declaration: either a field declaration
(`CursorKind.FIELD_DECL`) or anything else (methods, bases, ...). -/
inductive Child where
  | fieldDecl (name : String) (ty : FieldType)
  | other
  deriving DecidableEq, Repr

/-- A top-level class declaration cursor: name and children in order. -/
structure ClassDecl where
  name : String
  children : List Child
  deriving DecidableEq, Repr

/-- A top-level cursor of a translation unit: a class declaration
(`CursorKind.CLASS_DECL`) or anything else. -/
inductive TopLevel where
  | classDecl (c : ClassDecl)
  | other
  deriving DecidableEq, Repr

/-! ## Python dictionaries as association lists -/

/-- Python `d[k]` / `k in d` as an option-valued lookup (first entry wins;
the insert below keeps keys unique). -/
def dlookup {α : Type} (k : String) (d : List (String × α)) : Option α :=
  (d.find? (fun p => p.1 == k)).map (·.2)

/-- Python `d[k] = v`: replace in place when the key exists, else append. -/
def dinsert {α : Type} (k : String) (v : α) (d : List (String × α)) :
    List (String × α) :=
  if (dlookup k d).isSome then
    d.map (fun p => if p.1 == k then (k, v) else p)
  else d ++ [(k, v)]

/-- The key list of a dictionary. -/
def dkeys {α : Type} (d : List (String × α)) : List String := d.map (·.1)

/-- The generator's global state: `discovered_classes` and
`discovered_optionals`. -/
structure Store where
  classes : List (String × List (String × String))
  opts : List (String × String)
  deriving DecidableEq, Repr

/-- Both dictionaries empty: the state at the start of a run. -/
def emptyStore : Store := ⟨[], []⟩

/-! ## The classifier (`map_field_type_to_capnp` and helpers) -/

/-- `OPTIONAL_TYPE_MAP` from the source. -/
def OPTIONAL_TYPE_MAP : List (String × String) :=
  [("int", "OptionalInt32"),
   ("short", "OptionalShort"),
   ("float", "OptionalFloat32"),
   ("double", "OptionalFloat64"),
   ("long long", "OptionalInt64")]

/-- `parse_boost_optional`: text between the first `<` and the last `>`,
stripped; `none` when the brackets are missing or inverted. -/
def parseBoostOptional (sp : String) : Option String :=
  let start := pyFind sp '<'
  let e := pyRFind sp '>'
  if start = -1 ∨ e = -1 ∨ e ≤ start then none
  else some (pyStrip (pySlice sp (start.toNat + 1) e.toNat))

/-- `map_builtin_cpp_type_to_capnp`. -/
def mapBuiltin : TypeKind → Option String
  | .INT | .LONG | .SHORT => some "Int32"
  | .UINT | .ULONG | .USHORT => some "UInt32"
  | .LONGLONG => some "Int64"
  | .ULONGLONG => some "UInt64"
  | .FLOAT => some "Float32"
  | .DOUBLE => some "Float64"
  | .BOOL => some "Bool"
  | _ => none

/-- The guard of the `std::vector<` arm of the classifier: the spelling
contains the vector syntax and both naive bracket searches succeed
(`start != -1 and end != -1` in the source). -/
def vectorBranch (sp : String) : Bool :=
  strContains sp "std::vector<" &&
    (pyFind sp '<' != -1 && pyRFind sp '>' != -1)

/-- The element-type dispatch of the `std::vector<` arm: naive slice of the
template parameter, then substring checks in the source's order. -/
def vectorListType (sp : String) : String :=
  let start := pyFind sp '<'
  let e := pyRFind sp '>'
  let inner := pyStrip (pySlice sp (start.toNat + 1) e.toNat)
  if strContains inner "int" then "List(Int32)"
  else if strContains inner "float" then "List(Float32)"
  else if strContains inner "double" then "List(Float64)"
  else if strContains inner "bool" then "List(Bool)"
  else if strContains inner "std::string" then "List(Text)"
  else "List(Text)"

/-- The source's stub-registration idiom
`if name not in discovered_classes: discovered_classes[name] = []`. -/
def registerStub (b : String) (s : Store) : Store :=
  if (dlookup b s.classes).isSome then s
  else { s with classes := dinsert b [] s.classes }

/-- The source's wrapper-registration idiom
`if opt_name not in discovered_optionals: discovered_optionals[opt_name] = base`. -/
def registerWrap (w b : String) (s : Store) : Store :=
  if (dlookup w s.opts).isSome then s
  else { s with opts := dinsert w b s.opts }

/-- `map_field_type_to_capnp`: returns the Cap'n Proto type string and the
updated store (the source mutates the two dictionaries in place). -/
def mapFieldTypeToCapnp (ft : FieldType) (s : Store) : String × Store :=
  if strContains ft.spelling "boost::optional<" then
    match parseBoostOptional ft.spelling with
    | none => ("Text", s)
    | some b =>
      match dlookup b OPTIONAL_TYPE_MAP with
      | some w => (w, s)
      | none =>
        let s1 := registerStub b s
        let optName := "Optional" ++ b
        let s2 := registerWrap optName b s1
        (optName, s2)
  else
    match mapBuiltin ft.kind with
    | some t => (t, s)
    | none =>
      if ft.kind = .RECORD then
        if strContains ft.spelling "std::basic_string" then ("Text", s)
        else if vectorBranch ft.spelling then (vectorListType ft.spelling, s)
        else (ft.spelling, registerStub ft.spelling s)
      else ("Text", s)

/-! ## The walker (`process_class`, `parse_headers_in_directory`) -/

/-- The field-collection loop of `process_class`: classify each
`FIELD_DECL` child in order, threading the store. -/
def procFields : List Child → Store → List (String × String) × Store
  | [], s => ([], s)
  | .fieldDecl fn ft :: rest, s =>
    let r := mapFieldTypeToCapnp ft s
    let pr := procFields rest r.2
    ((fn, r.1) :: pr.1, pr.2)
  | .other :: rest, s => procFields rest s

/-- `process_class`: the class name plus its resolved fields, and the
store after the side effects of classification. -/
def processClass (c : ClassDecl) (s : Store) :
    (String × List (String × String)) × Store :=
  let pr := procFields c.children s
  ((c.name, pr.1), pr.2)

/-- One iteration of the cursor loop in `parse_headers_in_directory`:
a `CLASS_DECL` is processed and, when both its name and its resolved field
list are non-empty (Python truthiness of `cls_name and fields`), stored
under its name; other cursors are ignored. -/
def stepTop (s : Store) (t : TopLevel) : Store :=
  match t with
  | .other => s
  | .classDecl c =>
    let pr := processClass c s
    if pr.1.1 ≠ "" ∧ pr.1.2 ≠ [] then
      { pr.2 with classes := dinsert pr.1.1 pr.1.2 pr.2.classes }
    else pr.2

/-- The whole cursor walk of `parse_headers_in_directory` (all headers
concatenated into one cursor stream), acting on a start store. -/
def runWalker (l : List TopLevel) (s : Store) : Store :=
  l.foldl stepTop s

/-- A full run: walk the declarations starting from the empty store. -/
def runStore (l : List TopLevel) : Store :=
  runWalker l emptyStore

/-! ## The emitter (`generate_capnp_file`) -/

/-- The field lines of a struct block, with `enumerate`-style indices. -/
def fieldLines : Nat → List (String × String) → List String
  | _, [] => []
  | i, (fn, ty) :: rest =>
    ("  " ++ pyLower fn ++ " @" ++ toString i ++ " :" ++ ty ++ ";\n")
      :: fieldLines (i + 1) rest

/-- One `struct` block for a discovered class. -/
def structBlock (n : String) (fs : List (String × String)) : String :=
  "struct " ++ n ++ " \x7b\n" ++ String.join (fieldLines 0 fs) ++ "\x7d\n\n"

/-- One `struct` block for an optional wrapper. -/
def optBlock (w b : String) : String :=
  "struct " ++ w ++ " \x7b\n" ++ "  value @0 :" ++ b ++ ";\n" ++ "\x7d\n\n"

/-- `sorted(d.keys())`: the keys in ascending lexicographic order. -/
def sortedKeys {α : Type} (d : List (String × α)) : List String :=
  List.insertionSort strLeP (d.map (·.1))

/-- The full text written by `generate_capnp_file`: fixed id line, class
blocks sorted by name, then wrapper blocks sorted by name. -/
def capnpText (s : Store) : String :=
  "@0x1234_5678_ABCD_EF01;\n\n"
    ++ String.join ((sortedKeys s.classes).map
        (fun n => structBlock n ((dlookup n s.classes).getD [])))
    ++ String.join ((sortedKeys s.opts).map
        (fun w => optBlock w ((dlookup w s.opts).getD "")))

/-! ## The entry point (`main`) -/

/-- Observable outcome of `main`: the usage diagnostic followed by
`sys.exit(1)`, or a written file plus the success message. -/
inductive MainResult where
  | usageExit
  | wrote (path content msg : String)
  deriving DecidableEq, Repr

/-- `main`, with the external parser's cursor stream for the given
directory passed as `decls`: a missing directory argument exits with the
usage diagnostic; otherwise the walker runs and the schema is written
unconditionally. -/
def mainModel (argv : List String) (decls : List TopLevel) : MainResult :=
  if argv.length < 2 then .usageExit
  else .wrote "generated.capnp" (capnpText (runStore decls))
        "Wrote schema to generated.capnp"

/-! ## Pure views of the classifier and walker

The classifier's return value never depends on the store, and its store
effect is a pair of conditional registrations.  The following definitions
name these projections; the characterization lemmas below prove that
`mapFieldTypeToCapnp` equals them. -/

/-- The eight mutually exclusive branches of the classifier's decision
tree, with the data each branch carries. -/
inductive FieldCase where
  | optMalformed
  | optPrim (w : String)
  | optClass (b : String)
  | builtin (t : String)
  | basicStr
  | vector
  | classRef
  | fallback
  deriving DecidableEq, Repr

/-- Which branch of `mapFieldTypeToCapnp` a field type takes (same decision
tree as the classifier, without the store effects). -/
def fieldCase (ft : FieldType) : FieldCase :=
  if strContains ft.spelling "boost::optional<" then
    match parseBoostOptional ft.spelling with
    | none => .optMalformed
    | some b =>
      match dlookup b OPTIONAL_TYPE_MAP with
      | some w => .optPrim w
      | none => .optClass b
  else
    match mapBuiltin ft.kind with
    | some t => .builtin t
    | none =>
      if ft.kind = .RECORD then
        if strContains ft.spelling "std::basic_string" then .basicStr
        else if vectorBranch ft.spelling then .vector
        else .classRef
      else .fallback

/-- The classifier's returned type string, independent of the store. -/
def classifyPure (ft : FieldType) : String :=
  match fieldCase ft with
  | .optMalformed => "Text"
  | .optPrim w => w
  | .optClass b => "Optional" ++ b
  | .builtin t => t
  | .basicStr => "Text"
  | .vector => vectorListType ft.spelling
  | .classRef => ft.spelling
  | .fallback => "Text"

/-- The class name the classifier stub-registers for this field, if any. -/
def ftStub (ft : FieldType) : Option String :=
  match fieldCase ft with
  | .optClass b => some b
  | .classRef => some ft.spelling
  | _ => none

/-- The wrapped base name for which the classifier registers an
`Optional...` wrapper for this field, if any. -/
def ftWrap (ft : FieldType) : Option String :=
  match fieldCase ft with
  | .optClass b => some b
  | _ => none

/-- The classifier's whole store effect, by branch. -/
def mapFieldStore (ft : FieldType) (s : Store) : Store :=
  match fieldCase ft with
  | .optClass b => registerWrap ("Optional" ++ b) b (registerStub b s)
  | .classRef => registerStub ft.spelling s
  | _ => s

/-- The classifier's effect on `discovered_classes` at key `n` for one
field, as an option to be `Option.or`-ed behind the previous contents. -/
def stubUpd (ft : FieldType) (n : String) : Option (List (String × String)) :=
  if ftStub ft = some n then some [] else none

/-- The classifier's effect on `discovered_optionals` at key `w` for one
field. -/
def wrapUpd (ft : FieldType) (w : String) : Option String :=
  match ftWrap ft with
  | some b => if w = "Optional" ++ b then some b else none
  | none => none

/-- The resolved field list of a class declaration, in declaration order:
name paired with the pure classification of the type. -/
def resolveChildren (ch : List Child) : List (String × String) :=
  ch.filterMap (fun c => match c with
    | .fieldDecl fn ft => some (fn, classifyPure ft)
    | .other => none)

/-- `resolveChildren` for a whole class declaration. -/
def resFields (c : ClassDecl) : List (String × String) :=
  resolveChildren c.children

/-- Combined stub effect of all fields of a child list at key `n`. -/
def childStub (ch : List Child) (n : String) : Option (List (String × String)) :=
  ch.findSome? (fun c => match c with
    | .fieldDecl _ ft => stubUpd ft n
    | .other => none)

/-- Combined wrapper effect of all fields of a child list at key `w`. -/
def childWrap (ch : List Child) (w : String) : Option String :=
  ch.findSome? (fun c => match c with
    | .fieldDecl _ ft => wrapUpd ft w
    | .other => none)

/-- The name under which the walker stores a top-level cursor, if any
(non-anonymous class with at least one resolved field). -/
def storedName : TopLevel → Option String
  | .classDecl c => if c.name ≠ "" ∧ resFields c ≠ [] then some c.name else none
  | .other => none

/-- The field list the walker stores for a top-level cursor. -/
def resFieldsTop : TopLevel → List (String × String)
  | .classDecl c => resFields c
  | .other => []

/-- Stub effect of a top-level cursor. -/
def stubTop : TopLevel → String → Option (List (String × String))
  | .classDecl c, n => childStub c.children n
  | .other, _ => none

/-- Wrapper effect of a top-level cursor. -/
def wrapTop : TopLevel → String → Option String
  | .classDecl c, w => childWrap c.children w
  | .other, _ => none

/-- The names of all class declarations in a cursor stream. -/
def classNames (l : List TopLevel) : List String :=
  l.filterMap (fun t => match t with
    | .classDecl c => some c.name
    | .other => none)

/-- Extensional equality of stores: same lookups in both dictionaries. -/
def StoreEq (s₁ s₂ : Store) : Prop :=
  (∀ n, dlookup n s₁.classes = dlookup n s₂.classes) ∧
  (∀ w, dlookup w s₁.opts = dlookup w s₂.opts)

/-- Well-formedness: both dictionaries have duplicate-free key lists
(the invariant Python dicts maintain). -/
def WFStore (s : Store) : Prop :=
  (dkeys s.classes).Nodup ∧ (dkeys s.opts).Nodup

/-! ## Order facts for the emitter's sort -/

theorem lexLe_total : ∀ as bs : List Char, lexLe as bs = true ∨ lexLe bs as = true
  | [], _ => Or.inl rfl
  | _ :: _, [] => Or.inr rfl
  | a :: as, b :: bs => by
    rcases lt_trichotomy a b with h | h | h
    · left; simp [lexLe, h]
    · subst h
      rcases lexLe_total as bs with ih | ih
      · left; simp [lexLe, ih, lt_irrefl]
      · right; simp [lexLe, ih, lt_irrefl]
    · right; simp [lexLe, h]

theorem lexLe_trans : ∀ as bs cs : List Char,
    lexLe as bs = true → lexLe bs cs = true → lexLe as cs = true
  | [], _, _, _, _ => rfl
  | _ :: _, [], _, h₁, _ => by simp [lexLe] at h₁
  | _ :: _, _ :: _, [], _, h₂ => by simp [lexLe] at h₂
  | a :: as, b :: bs, c :: cs, h₁, h₂ => by
    by_cases hab : a < b
    · by_cases hbc : b < c
      · simp [lexLe, lt_trans hab hbc]
      · by_cases hbc' : b = c
        · subst hbc'; simp [lexLe, hab]
        · simp [lexLe, hbc, hbc'] at h₂
    · by_cases hab' : a = b
      · subst hab'
        by_cases hbc : a < c
        · simp [lexLe, hbc]
        · by_cases hbc' : a = c
          · subst hbc'
            have h₁' : lexLe as bs = true := by simpa [lexLe, lt_irrefl] using h₁
            have h₂' : lexLe bs cs = true := by simpa [lexLe, lt_irrefl] using h₂
            simpa [lexLe, lt_irrefl] using lexLe_trans as bs cs h₁' h₂'
          · simp [lexLe, hbc, hbc'] at h₂
      · simp [lexLe, hab, hab'] at h₁

theorem lexLe_antisymm : ∀ as bs : List Char,
    lexLe as bs = true → lexLe bs as = true → as = bs
  | [], [], _, _ => rfl
  | [], _ :: _, _, h₂ => by simp [lexLe] at h₂
  | _ :: _, [], h₁, _ => by simp [lexLe] at h₁
  | a :: as, b :: bs, h₁, h₂ => by
    by_cases hab : a < b
    · simp [lexLe, lt_asymm hab, ne_of_gt hab] at h₂
    · by_cases hab' : a = b
      · subst hab'
        have h₁' : lexLe as bs = true := by simpa [lexLe, lt_irrefl] using h₁
        have h₂' : lexLe bs as = true := by simpa [lexLe, lt_irrefl] using h₂
        rw [lexLe_antisymm as bs h₁' h₂']
      · simp [lexLe, hab, hab'] at h₁

instance : IsTotal String strLeP := ⟨fun a b => lexLe_total a.data b.data⟩

instance : IsTrans String strLeP := ⟨fun a b c => lexLe_trans a.data b.data c.data⟩

instance : IsAntisymm String strLeP :=
  ⟨fun a b h₁ h₂ => String.ext (lexLe_antisymm a.data b.data h₁ h₂)⟩

/-! ## Dictionary lemmas -/

theorem dlookup_cons_eq {α : Type} {p : String × α} {d : List (String × α)}
    {n : String} (h : p.1 = n) : dlookup n (p :: d) = some p.2 := by
  have hb : (p.1 == n) = true := beq_iff_eq.mpr h
  show ((p :: d).find? (fun q => q.1 == n)).map (·.2) = some p.2
  rw [List.find?_cons, hb]
  rfl

theorem dlookup_cons_ne {α : Type} {p : String × α} {d : List (String × α)}
    {n : String} (h : p.1 ≠ n) : dlookup n (p :: d) = dlookup n d := by
  have hb : (p.1 == n) = false := beq_eq_false_iff_ne.mpr h
  show ((p :: d).find? (fun q => q.1 == n)).map (·.2) = dlookup n d
  rw [List.find?_cons, hb]
  rfl

theorem mem_dkeys {α : Type} (n : String) (d : List (String × α)) :
    n ∈ dkeys d ↔ (dlookup n d).isSome := by
  induction d with
  | nil => simp [dkeys, dlookup]
  | cons p d ih =>
    by_cases h : p.1 = n
    · rw [dlookup_cons_eq h]
      simp [dkeys, h]
    · rw [dlookup_cons_ne h]
      simp only [dkeys, List.map_cons, List.mem_cons] at ih ⊢
      constructor
      · rintro (he | hm)
        · exact absurd he.symm h
        · exact ih.mp hm
      · intro hs
        exact Or.inr (ih.mpr hs)

theorem dlookup_map_ne {α : Type} (n k : String) (v : α) (d : List (String × α))
    (h : n ≠ k) :
    dlookup n (d.map (fun p => if p.1 == k then (k, v) else p)) = dlookup n d := by
  induction d with
  | nil => rfl
  | cons p d ih =>
    simp only [List.map_cons]
    by_cases hk : p.1 = k
    · have hb : (p.1 == k) = true := beq_iff_eq.mpr hk
      rw [if_pos hb]
      rw [dlookup_cons_ne (Ne.symm h), dlookup_cons_ne (hk ▸ Ne.symm h : p.1 ≠ n)]
      exact ih
    · have hb : (p.1 == k) = false := beq_eq_false_iff_ne.mpr hk
      rw [if_neg (by simp [hb])]
      by_cases hn : p.1 = n
      · rw [dlookup_cons_eq hn, dlookup_cons_eq hn]
      · rw [dlookup_cons_ne hn, dlookup_cons_ne hn]
        exact ih

theorem dlookup_map_self {α : Type} (k : String) (v : α) (d : List (String × α))
    (h : (dlookup k d).isSome) :
    dlookup k (d.map (fun p => if p.1 == k then (k, v) else p)) = some v := by
  induction d with
  | nil => simp [dlookup] at h
  | cons p d ih =>
    simp only [List.map_cons]
    by_cases hk : p.1 = k
    · have hb : (p.1 == k) = true := beq_iff_eq.mpr hk
      rw [if_pos hb]
      exact dlookup_cons_eq rfl
    · have hb : (p.1 == k) = false := beq_eq_false_iff_ne.mpr hk
      rw [if_neg (by simp [hb])]
      rw [dlookup_cons_ne hk] at h
      rw [dlookup_cons_ne hk]
      exact ih h

theorem dlookup_append {α : Type} (n : String) (d₁ d₂ : List (String × α)) :
    dlookup n (d₁ ++ d₂) = (dlookup n d₁).or (dlookup n d₂) := by
  induction d₁ with
  | nil => simp [dlookup, Option.none_or]
  | cons p d ih =>
    by_cases hn : p.1 = n
    · rw [List.cons_append, dlookup_cons_eq hn, dlookup_cons_eq hn]
      rfl
    · rw [List.cons_append, dlookup_cons_ne hn, dlookup_cons_ne hn]
      exact ih

theorem dlookup_dinsert {α : Type} (k n : String) (v : α) (d : List (String × α)) :
    dlookup n (dinsert k v d) = if n = k then some v else dlookup n d := by
  unfold dinsert
  by_cases hs : (dlookup k d).isSome
  · rw [if_pos hs]
    by_cases hn : n = k
    · subst hn
      rw [if_pos rfl]
      exact dlookup_map_self n v d hs
    · rw [if_neg hn]
      exact dlookup_map_ne n k v d hn
  · rw [if_neg hs, dlookup_append]
    by_cases hn : n = k
    · subst hn
      have hnone : dlookup n d = none :=
        Option.not_isSome_iff_eq_none.mp hs
      rw [if_pos rfl, hnone]
      show Option.or none (dlookup n [(n, v)]) = some v
      rw [Option.none_or]
      exact dlookup_cons_eq rfl
    · rw [if_neg hn, dlookup_cons_ne (Ne.symm hn)]
      show (dlookup n d).or none = dlookup n d
      exact Option.or_none

theorem dkeys_map_replace {α : Type} (k : String) (v : α) (d : List (String × α)) :
    dkeys (d.map (fun p => if p.1 == k then (k, v) else p)) = dkeys d := by
  induction d with
  | nil => rfl
  | cons p d ih =>
    simp only [dkeys, List.map_cons] at ih ⊢
    by_cases hk : p.1 = k
    · have hb : (p.1 == k) = true := beq_iff_eq.mpr hk
      rw [if_pos hb, ih]
      simp [hk]
    · have hb : (p.1 == k) = false := beq_eq_false_iff_ne.mpr hk
      rw [if_neg (by simp [hb]), ih]

theorem dkeys_dinsert {α : Type} (k : String) (v : α) (d : List (String × α)) :
    dkeys (dinsert k v d) =
      if (dlookup k d).isSome then dkeys d else dkeys d ++ [k] := by
  unfold dinsert
  by_cases hs : (dlookup k d).isSome
  · rw [if_pos hs, if_pos hs]
    exact dkeys_map_replace k v d
  · rw [if_neg hs, if_neg hs]
    simp [dkeys]

theorem nodup_dkeys_dinsert {α : Type} (k : String) (v : α) (d : List (String × α))
    (h : (dkeys d).Nodup) : (dkeys (dinsert k v d)).Nodup := by
  rw [dkeys_dinsert]
  by_cases hs : (dlookup k d).isSome
  · rw [if_pos hs]; exact h
  · have hk : k ∉ dkeys d := fun hm => hs ((mem_dkeys k d).mp hm)
    rw [if_neg hs]
    simp [List.nodup_append, h, hk]

/-! ## Characterization of the classifier's store effect -/

theorem dlookup_skipInsert {α : Type} (k n : String) (v : α) (d : List (String × α)) :
    dlookup n (if (dlookup k d).isSome then d else dinsert k v d) =
      (dlookup n d).or (if n = k then some v else none) := by
  by_cases hs : (dlookup k d).isSome
  · rw [if_pos hs]
    by_cases hn : n = k
    · subst hn
      obtain ⟨w, hw⟩ := Option.isSome_iff_exists.mp hs
      rw [hw]; rfl
    · rw [if_neg hn]; exact Option.or_none.symm
  · rw [if_neg hs, dlookup_dinsert]
    by_cases hn : n = k
    · subst hn
      rw [if_pos rfl, if_pos rfl, Option.not_isSome_iff_eq_none.mp hs]; rfl
    · rw [if_neg hn, if_neg hn]; exact Option.or_none.symm

theorem nodup_skipInsert {α : Type} (k : String) (v : α) (d : List (String × α))
    (h : (dkeys d).Nodup) :
    (dkeys (if (dlookup k d).isSome then d else dinsert k v d)).Nodup := by
  by_cases hs : (dlookup k d).isSome
  · rw [if_pos hs]; exact h
  · rw [if_neg hs]; exact nodup_dkeys_dinsert k v d h

theorem registerStub_classes (b : String) (s : Store) (n : String) :
    dlookup n (registerStub b s).classes =
      (dlookup n s.classes).or (if n = b then some [] else none) := by
  unfold registerStub
  rw [apply_ite Store.classes]
  exact dlookup_skipInsert b n [] s.classes

theorem registerStub_opts (b : String) (s : Store) :
    (registerStub b s).opts = s.opts := by
  unfold registerStub
  rw [apply_ite Store.opts]
  simp

theorem registerWrap_opts (w b : String) (s : Store) (w' : String) :
    dlookup w' (registerWrap w b s).opts =
      (dlookup w' s.opts).or (if w' = w then some b else none) := by
  unfold registerWrap
  rw [apply_ite Store.opts]
  exact dlookup_skipInsert w w' b s.opts

theorem registerWrap_classes (w b : String) (s : Store) :
    (registerWrap w b s).classes = s.classes := by
  unfold registerWrap
  rw [apply_ite Store.classes]
  simp

theorem registerStub_WF (b : String) (s : Store) (h : WFStore s) :
    WFStore (registerStub b s) := by
  refine ⟨?_, ?_⟩
  · show (dkeys (registerStub b s).classes).Nodup
    unfold registerStub
    rw [apply_ite Store.classes]
    exact nodup_skipInsert b [] s.classes h.1
  · rw [registerStub_opts]; exact h.2

theorem registerWrap_WF (w b : String) (s : Store) (h : WFStore s) :
    WFStore (registerWrap w b s) := by
  refine ⟨?_, ?_⟩
  · rw [registerWrap_classes]; exact h.1
  · show (dkeys (registerWrap w b s).opts).Nodup
    unfold registerWrap
    rw [apply_ite Store.opts]
    exact nodup_skipInsert w b s.opts h.2

/-! ## Branch equations of the classifier -/

theorem bool_eq_false_of_ne {b : Bool} (h : ¬ b = true) : b = false := by
  cases b
  · rfl
  · exact absurd rfl h

theorem case_optMalformed (ft : FieldType) (s : Store)
    (h : strContains ft.spelling "boost::optional<" = true)
    (hp : parseBoostOptional ft.spelling = none) :
    fieldCase ft = .optMalformed ∧ mapFieldTypeToCapnp ft s = ("Text", s) := by
  constructor
  · unfold fieldCase; rw [if_pos h, hp]
  · unfold mapFieldTypeToCapnp; rw [if_pos h, hp]

theorem case_optPrim (ft : FieldType) (s : Store) (b w : String)
    (h : strContains ft.spelling "boost::optional<" = true)
    (hp : parseBoostOptional ft.spelling = some b)
    (hm : dlookup b OPTIONAL_TYPE_MAP = some w) :
    fieldCase ft = .optPrim w ∧ mapFieldTypeToCapnp ft s = (w, s) := by
  constructor
  · unfold fieldCase; rw [if_pos h, hp]
    show (match dlookup b OPTIONAL_TYPE_MAP with
          | some w => FieldCase.optPrim w
          | none => FieldCase.optClass b) = FieldCase.optPrim w
    rw [hm]
  · unfold mapFieldTypeToCapnp; rw [if_pos h, hp]
    show (match dlookup b OPTIONAL_TYPE_MAP with
          | some w => (w, s)
          | none =>
            ("Optional" ++ b, registerWrap ("Optional" ++ b) b (registerStub b s)))
        = (w, s)
    rw [hm]

theorem case_optClass (ft : FieldType) (s : Store) (b : String)
    (h : strContains ft.spelling "boost::optional<" = true)
    (hp : parseBoostOptional ft.spelling = some b)
    (hm : dlookup b OPTIONAL_TYPE_MAP = none) :
    fieldCase ft = .optClass b ∧
    mapFieldTypeToCapnp ft s =
      ("Optional" ++ b, registerWrap ("Optional" ++ b) b (registerStub b s)) := by
  constructor
  · unfold fieldCase; rw [if_pos h, hp]
    show (match dlookup b OPTIONAL_TYPE_MAP with
          | some w => FieldCase.optPrim w
          | none => FieldCase.optClass b) = FieldCase.optClass b
    rw [hm]
  · unfold mapFieldTypeToCapnp; rw [if_pos h, hp]
    show (match dlookup b OPTIONAL_TYPE_MAP with
          | some w => (w, s)
          | none =>
            ("Optional" ++ b, registerWrap ("Optional" ++ b) b (registerStub b s)))
        = ("Optional" ++ b, registerWrap ("Optional" ++ b) b (registerStub b s))
    rw [hm]

theorem case_builtin (ft : FieldType) (s : Store) (t : String)
    (h : strContains ft.spelling "boost::optional<" = false)
    (hb : mapBuiltin ft.kind = some t) :
    fieldCase ft = .builtin t ∧ mapFieldTypeToCapnp ft s = (t, s) := by
  have hP : ¬ strContains ft.spelling "boost::optional<" = true := by
    rw [h]; exact Bool.false_ne_true
  constructor
  · unfold fieldCase; rw [if_neg hP, hb]
  · unfold mapFieldTypeToCapnp; rw [if_neg hP, hb]

theorem case_basicStr (ft : FieldType) (s : Store)
    (h : strContains ft.spelling "boost::optional<" = false)
    (hb : mapBuiltin ft.kind = none)
    (hr : ft.kind = TypeKind.RECORD)
    (hbs : strContains ft.spelling "std::basic_string" = true) :
    fieldCase ft = .basicStr ∧ mapFieldTypeToCapnp ft s = ("Text", s) := by
  have hP : ¬ strContains ft.spelling "boost::optional<" = true := by
    rw [h]; exact Bool.false_ne_true
  constructor
  · unfold fieldCase; rw [if_neg hP, hb]
    show (if ft.kind = TypeKind.RECORD then
            if strContains ft.spelling "std::basic_string" then FieldCase.basicStr
            else if vectorBranch ft.spelling then FieldCase.vector
            else FieldCase.classRef
          else FieldCase.fallback) = FieldCase.basicStr
    rw [if_pos hr, if_pos hbs]
  · unfold mapFieldTypeToCapnp; rw [if_neg hP, hb]
    show (if ft.kind = TypeKind.RECORD then
            if strContains ft.spelling "std::basic_string" then ("Text", s)
            else if vectorBranch ft.spelling then (vectorListType ft.spelling, s)
            else (ft.spelling, registerStub ft.spelling s)
          else ("Text", s)) = ("Text", s)
    rw [if_pos hr, if_pos hbs]

theorem case_vector (ft : FieldType) (s : Store)
    (h : strContains ft.spelling "boost::optional<" = false)
    (hb : mapBuiltin ft.kind = none)
    (hr : ft.kind = TypeKind.RECORD)
    (hbs : strContains ft.spelling "std::basic_string" = false)
    (hv : vectorBranch ft.spelling = true) :
    fieldCase ft = .vector ∧
    mapFieldTypeToCapnp ft s = (vectorListType ft.spelling, s) := by
  have hP : ¬ strContains ft.spelling "boost::optional<" = true := by
    rw [h]; exact Bool.false_ne_true
  have hbsP : ¬ strContains ft.spelling "std::basic_string" = true := by
    rw [hbs]; exact Bool.false_ne_true
  constructor
  · unfold fieldCase; rw [if_neg hP, hb]
    show (if ft.kind = TypeKind.RECORD then
            if strContains ft.spelling "std::basic_string" then FieldCase.basicStr
            else if vectorBranch ft.spelling then FieldCase.vector
            else FieldCase.classRef
          else FieldCase.fallback) = FieldCase.vector
    rw [if_pos hr, if_neg hbsP, if_pos hv]
  · unfold mapFieldTypeToCapnp; rw [if_neg hP, hb]
    show (if ft.kind = TypeKind.RECORD then
            if strContains ft.spelling "std::basic_string" then ("Text", s)
            else if vectorBranch ft.spelling then (vectorListType ft.spelling, s)
            else (ft.spelling, registerStub ft.spelling s)
          else ("Text", s)) = (vectorListType ft.spelling, s)
    rw [if_pos hr, if_neg hbsP, if_pos hv]

theorem case_classRef (ft : FieldType) (s : Store)
    (h : strContains ft.spelling "boost::optional<" = false)
    (hb : mapBuiltin ft.kind = none)
    (hr : ft.kind = TypeKind.RECORD)
    (hbs : strContains ft.spelling "std::basic_string" = false)
    (hv : vectorBranch ft.spelling = false) :
    fieldCase ft = .classRef ∧
    mapFieldTypeToCapnp ft s = (ft.spelling, registerStub ft.spelling s) := by
  have hP : ¬ strContains ft.spelling "boost::optional<" = true := by
    rw [h]; exact Bool.false_ne_true
  have hbsP : ¬ strContains ft.spelling "std::basic_string" = true := by
    rw [hbs]; exact Bool.false_ne_true
  have hvP : ¬ vectorBranch ft.spelling = true := by
    rw [hv]; exact Bool.false_ne_true
  constructor
  · unfold fieldCase; rw [if_neg hP, hb]
    show (if ft.kind = TypeKind.RECORD then
            if strContains ft.spelling "std::basic_string" then FieldCase.basicStr
            else if vectorBranch ft.spelling then FieldCase.vector
            else FieldCase.classRef
          else FieldCase.fallback) = FieldCase.classRef
    rw [if_pos hr, if_neg hbsP, if_neg hvP]
  · unfold mapFieldTypeToCapnp; rw [if_neg hP, hb]
    show (if ft.kind = TypeKind.RECORD then
            if strContains ft.spelling "std::basic_string" then ("Text", s)
            else if vectorBranch ft.spelling then (vectorListType ft.spelling, s)
            else (ft.spelling, registerStub ft.spelling s)
          else ("Text", s)) = (ft.spelling, registerStub ft.spelling s)
    rw [if_pos hr, if_neg hbsP, if_neg hvP]

theorem case_fallback (ft : FieldType) (s : Store)
    (h : strContains ft.spelling "boost::optional<" = false)
    (hb : mapBuiltin ft.kind = none)
    (hr : ¬ ft.kind = TypeKind.RECORD) :
    fieldCase ft = .fallback ∧ mapFieldTypeToCapnp ft s = ("Text", s) := by
  have hP : ¬ strContains ft.spelling "boost::optional<" = true := by
    rw [h]; exact Bool.false_ne_true
  constructor
  · unfold fieldCase; rw [if_neg hP, hb]
    show (if ft.kind = TypeKind.RECORD then
            if strContains ft.spelling "std::basic_string" then FieldCase.basicStr
            else if vectorBranch ft.spelling then FieldCase.vector
            else FieldCase.classRef
          else FieldCase.fallback) = FieldCase.fallback
    rw [if_neg hr]
  · unfold mapFieldTypeToCapnp; rw [if_neg hP, hb]
    show (if ft.kind = TypeKind.RECORD then
            if strContains ft.spelling "std::basic_string" then ("Text", s)
            else if vectorBranch ft.spelling then (vectorListType ft.spelling, s)
            else (ft.spelling, registerStub ft.spelling s)
          else ("Text", s)) = ("Text", s)
    rw [if_neg hr]

/-- The classifier equals its pure value paired with its store effect. -/
theorem mapField_eq (ft : FieldType) (s : Store) :
    mapFieldTypeToCapnp ft s = (classifyPure ft, mapFieldStore ft s) := by
  by_cases h : strContains ft.spelling "boost::optional<" = true
  · cases hp : parseBoostOptional ft.spelling with
    | none =>
      obtain ⟨hc, he⟩ := case_optMalformed ft s h hp
      rw [he]; unfold classifyPure mapFieldStore; rw [hc]
    | some b =>
      cases hm : dlookup b OPTIONAL_TYPE_MAP with
      | some w =>
        obtain ⟨hc, he⟩ := case_optPrim ft s b w h hp hm
        rw [he]; unfold classifyPure mapFieldStore; rw [hc]
      | none =>
        obtain ⟨hc, he⟩ := case_optClass ft s b h hp hm
        rw [he]; unfold classifyPure mapFieldStore; rw [hc]
  · have hf := bool_eq_false_of_ne h
    cases hb : mapBuiltin ft.kind with
    | some t =>
      obtain ⟨hc, he⟩ := case_builtin ft s t hf hb
      rw [he]; unfold classifyPure mapFieldStore; rw [hc]
    | none =>
      by_cases hr : ft.kind = TypeKind.RECORD
      · by_cases hbs : strContains ft.spelling "std::basic_string" = true
        · obtain ⟨hc, he⟩ := case_basicStr ft s hf hb hr hbs
          rw [he]; unfold classifyPure mapFieldStore; rw [hc]
        · have hbsf := bool_eq_false_of_ne hbs
          by_cases hv : vectorBranch ft.spelling = true
          · obtain ⟨hc, he⟩ := case_vector ft s hf hb hr hbsf hv
            rw [he]; unfold classifyPure mapFieldStore; rw [hc]
          · have hvf := bool_eq_false_of_ne hv
            obtain ⟨hc, he⟩ := case_classRef ft s hf hb hr hbsf hvf
            rw [he]; unfold classifyPure mapFieldStore; rw [hc]
      · obtain ⟨hc, he⟩ := case_fallback ft s hf hb hr
        rw [he]; unfold classifyPure mapFieldStore; rw [hc]

/-- The classifier's full specification: pure return value, store effect on
each dictionary expressed by `Option.or`, and preservation of
well-formedness. -/
theorem mapField_spec (ft : FieldType) (s : Store) :
    (mapFieldTypeToCapnp ft s).1 = classifyPure ft ∧
    (∀ n, dlookup n (mapFieldTypeToCapnp ft s).2.classes =
      (dlookup n s.classes).or (stubUpd ft n)) ∧
    (∀ w, dlookup w (mapFieldTypeToCapnp ft s).2.opts =
      (dlookup w s.opts).or (wrapUpd ft w)) ∧
    (WFStore s → WFStore (mapFieldTypeToCapnp ft s).2) := by
  rw [mapField_eq]
  refine ⟨rfl, fun n => ?_, fun w => ?_, fun hw => ?_⟩
  · show dlookup n (mapFieldStore ft s).classes =
      (dlookup n s.classes).or (stubUpd ft n)
    unfold mapFieldStore stubUpd ftStub
    cases hc : fieldCase ft
    case optClass b =>
      show dlookup n (registerWrap ("Optional" ++ b) b (registerStub b s)).classes =
        (dlookup n s.classes).or (if some b = some n then some [] else none)
      rw [registerWrap_classes, registerStub_classes]
      congr 1
      by_cases hn : n = b
      · rw [if_pos hn, if_pos (by rw [hn])]
      · rw [if_neg hn, if_neg (fun hh : some b = some n => hn (Option.some.inj hh).symm)]
    case classRef =>
      show dlookup n (registerStub ft.spelling s).classes =
        (dlookup n s.classes).or
          (if some ft.spelling = some n then some [] else none)
      rw [registerStub_classes]
      congr 1
      by_cases hn : n = ft.spelling
      · rw [if_pos hn, if_pos (by rw [hn])]
      · rw [if_neg hn,
          if_neg (fun hh : some ft.spelling = some n => hn (Option.some.inj hh).symm)]
    all_goals
      show dlookup n s.classes =
        (dlookup n s.classes).or
          (if (none : Option String) = some n then some [] else none)
    all_goals rw [if_neg (fun hh : (none : Option String) = some n =>
      Option.noConfusion hh)]
    all_goals exact Option.or_none.symm
  · show dlookup w (mapFieldStore ft s).opts =
      (dlookup w s.opts).or (wrapUpd ft w)
    unfold mapFieldStore wrapUpd ftWrap
    cases hc : fieldCase ft
    case optClass b =>
      show dlookup w (registerWrap ("Optional" ++ b) b (registerStub b s)).opts =
        (dlookup w s.opts).or (if w = "Optional" ++ b then some b else none)
      rw [registerWrap_opts, registerStub_opts]
    case classRef =>
      show dlookup w (registerStub ft.spelling s).opts =
        (dlookup w s.opts).or none
      rw [registerStub_opts]
      exact Option.or_none.symm
    all_goals
      show dlookup w s.opts = (dlookup w s.opts).or none
    all_goals exact Option.or_none.symm
  · show WFStore (mapFieldStore ft s)
    unfold mapFieldStore
    cases hc : fieldCase ft
    case optClass b =>
      exact registerWrap_WF _ _ _ (registerStub_WF _ _ hw)
    case classRef =>
      exact registerStub_WF _ _ hw
    all_goals exact hw

/-! ## The walker's store effect -/

theorem findSome?_cons_or {α β : Type} (f : α → Option β) (a : α) (l : List α) :
    List.findSome? f (a :: l) = (f a).or (List.findSome? f l) := by
  cases h : f a <;> simp [List.findSome?_cons, h, Option.or]

theorem childStub_cons_field (fn : String) (ft : FieldType) (rest : List Child)
    (n : String) :
    childStub (.fieldDecl fn ft :: rest) n = (stubUpd ft n).or (childStub rest n) := by
  unfold childStub
  rw [findSome?_cons_or]

theorem childStub_cons_other (rest : List Child) (n : String) :
    childStub (.other :: rest) n = childStub rest n := by
  unfold childStub
  rw [findSome?_cons_or]
  exact Option.none_or

theorem childWrap_cons_field (fn : String) (ft : FieldType) (rest : List Child)
    (w : String) :
    childWrap (.fieldDecl fn ft :: rest) w = (wrapUpd ft w).or (childWrap rest w) := by
  unfold childWrap
  rw [findSome?_cons_or]

theorem childWrap_cons_other (rest : List Child) (w : String) :
    childWrap (.other :: rest) w = childWrap rest w := by
  unfold childWrap
  rw [findSome?_cons_or]
  exact Option.none_or

/-- Field-loop specification: the resolved list is the pure resolution in
declaration order, and the store effect is the combined stub/wrapper
registration of the fields. -/
theorem procFields_spec : ∀ (ch : List Child) (s : Store),
    (procFields ch s).1 = resolveChildren ch ∧
    (∀ n, dlookup n (procFields ch s).2.classes =
      (dlookup n s.classes).or (childStub ch n)) ∧
    (∀ w, dlookup w (procFields ch s).2.opts =
      (dlookup w s.opts).or (childWrap ch w)) ∧
    (WFStore s → WFStore (procFields ch s).2)
  | [], s => by
    refine ⟨rfl, fun n => ?_, fun w => ?_, fun hw => hw⟩
    · exact Option.or_none.symm
    · exact Option.or_none.symm
  | .fieldDecl fn ft :: rest, s => by
    obtain ⟨h1, h2, h3, h4⟩ := procFields_spec rest (mapFieldTypeToCapnp ft s).2
    obtain ⟨m1, m2, m3, m4⟩ := mapField_spec ft s
    refine ⟨?_, fun n => ?_, fun w => ?_, fun hw => ?_⟩
    · show (fn, (mapFieldTypeToCapnp ft s).1)
          :: (procFields rest (mapFieldTypeToCapnp ft s).2).1
        = resolveChildren (.fieldDecl fn ft :: rest)
      rw [h1, m1]
      rfl
    · show dlookup n (procFields rest (mapFieldTypeToCapnp ft s).2).2.classes = _
      rw [h2 n, m2 n, Option.or_assoc, childStub_cons_field]
    · show dlookup w (procFields rest (mapFieldTypeToCapnp ft s).2).2.opts = _
      rw [h3 w, m3 w, Option.or_assoc, childWrap_cons_field]
    · exact h4 (m4 hw)
  | .other :: rest, s => by
    obtain ⟨h1, h2, h3, h4⟩ := procFields_spec rest s
    refine ⟨?_, fun n => ?_, fun w => ?_, fun hw => h4 hw⟩
    · show (procFields rest s).1 = resolveChildren (.other :: rest)
      rw [h1]
      rfl
    · show dlookup n (procFields rest s).2.classes = _
      rw [h2 n, childStub_cons_other]
    · show dlookup w (procFields rest s).2.opts = _
      rw [h3 w, childWrap_cons_other]

/-- One walker iteration: the stored name (if any) gets the resolved field
list, everything else keeps the prior value behind the cursor's stub and
wrapper registrations. -/
theorem stepTop_spec (s : Store) (t : TopLevel) :
    (∀ n, dlookup n (stepTop s t).classes =
      if storedName t = some n then some (resFieldsTop t)
      else (dlookup n s.classes).or (stubTop t n)) ∧
    (∀ w, dlookup w (stepTop s t).opts =
      (dlookup w s.opts).or (wrapTop t w)) ∧
    (WFStore s → WFStore (stepTop s t)) := by
  cases t with
  | other =>
    refine ⟨fun n => ?_, fun w => ?_, fun hw => hw⟩
    · show dlookup n s.classes =
        if (none : Option String) = some n then some ([] : List (String × String))
        else (dlookup n s.classes).or none
      rw [if_neg (fun hh : (none : Option String) = some n => Option.noConfusion hh)]
      exact Option.or_none.symm
    · show dlookup w s.opts = (dlookup w s.opts).or none
      exact Option.or_none.symm
  | classDecl c =>
    obtain ⟨h1, h2, h3, h4⟩ := procFields_spec c.children s
    have hfst : (procFields c.children s).1 = resFields c := h1
    by_cases hst : c.name ≠ "" ∧ resFields c ≠ []
    · have hst' : c.name ≠ "" ∧ (procFields c.children s).1 ≠ [] := by
        rw [hfst]; exact hst
      have hstep : stepTop s (.classDecl c) =
          { (procFields c.children s).2 with
            classes := dinsert c.name (resFields c)
              (procFields c.children s).2.classes } := by
        show (if c.name ≠ "" ∧ (procFields c.children s).1 ≠ [] then
              { (procFields c.children s).2 with
                classes := dinsert c.name (procFields c.children s).1
                  (procFields c.children s).2.classes }
            else (procFields c.children s).2) = _
        rw [if_pos hst', hfst]
      have hname : storedName (.classDecl c) = some c.name := by
        show (if c.name ≠ "" ∧ resFields c ≠ [] then some c.name else none) = _
        rw [if_pos hst]
      refine ⟨fun n => ?_, fun w => ?_, fun hw => ?_⟩
      · rw [hstep, hname]
        show dlookup n (dinsert c.name (resFields c)
            (procFields c.children s).2.classes) = _
        rw [dlookup_dinsert]
        by_cases hn : n = c.name
        · rw [if_pos hn, if_pos (by rw [hn])]
          rfl
        · rw [if_neg hn,
            if_neg (fun hh : some c.name = some n => hn (Option.some.inj hh).symm)]
          exact h2 n
      · rw [hstep]
        show dlookup w (procFields c.children s).2.opts = _
        exact h3 w
      · rw [hstep]
        obtain ⟨hwc, hwo⟩ := h4 hw
        exact ⟨nodup_dkeys_dinsert _ _ _ hwc, hwo⟩
    · have hst' : ¬(c.name ≠ "" ∧ (procFields c.children s).1 ≠ []) := by
        rw [hfst]; exact hst
      have hstep : stepTop s (.classDecl c) = (procFields c.children s).2 := by
        show (if c.name ≠ "" ∧ (procFields c.children s).1 ≠ [] then
              { (procFields c.children s).2 with
                classes := dinsert c.name (procFields c.children s).1
                  (procFields c.children s).2.classes }
            else (procFields c.children s).2) = _
        rw [if_neg hst']
      have hname : storedName (.classDecl c) = none := by
        show (if c.name ≠ "" ∧ resFields c ≠ [] then some c.name else none) = _
        rw [if_neg hst]
      refine ⟨fun n => ?_, fun w => ?_, fun hw => ?_⟩
      · rw [hstep, hname,
          if_neg (fun hh : (none : Option String) = some n => Option.noConfusion hh)]
        exact h2 n
      · rw [hstep]
        exact h3 w
      · rw [hstep]
        exact h4 hw

/-! ## Commutation of walker steps with distinct stored names -/

theorem or_or_comm {α : Type} (a b c : Option α)
    (h : ∀ x y, b = some x → c = some y → x = y) :
    (a.or b).or c = (a.or c).or b := by
  cases a with
  | some v => rfl
  | none =>
    cases b with
    | none => cases c <;> rfl
    | some x =>
      cases c with
      | none => rfl
      | some y => simpa [Option.or] using (h x y rfl rfl)

theorem stubUpd_val (ft : FieldType) (n : String) (v : List (String × String))
    (h : stubUpd ft n = some v) : v = [] := by
  unfold stubUpd at h
  by_cases hc : ftStub ft = some n
  · rw [if_pos hc] at h
    exact (Option.some.inj h).symm
  · rw [if_neg hc] at h
    exact absurd h (fun hh => Option.noConfusion hh)

theorem wrapUpd_val (ft : FieldType) (w b : String)
    (h : wrapUpd ft w = some b) : w = "Optional" ++ b := by
  unfold wrapUpd at h
  cases hf : ftWrap ft with
  | none => rw [hf] at h; exact absurd h (fun hh => Option.noConfusion hh)
  | some b' =>
    rw [hf] at h
    have h' : (if w = "Optional" ++ b' then some b' else none) = some b := h
    by_cases hw : w = "Optional" ++ b'
    · rw [if_pos hw] at h'
      rw [hw, ← (Option.some.inj h')]
    · rw [if_neg hw] at h'
      exact absurd h' (fun hh => Option.noConfusion hh)

theorem childStub_val : ∀ (ch : List Child) (n : String) (v : List (String × String)),
    childStub ch n = some v → v = []
  | [], _, _, h => absurd h (fun hh => Option.noConfusion hh)
  | .fieldDecl fn ft :: rest, n, v, h => by
    rw [childStub_cons_field] at h
    cases hs : stubUpd ft n with
    | none => rw [hs, Option.none_or] at h; exact childStub_val rest n v h
    | some u =>
      rw [hs] at h
      have : u = v := Option.some.inj h
      rw [← this]
      exact stubUpd_val ft n u hs
  | .other :: rest, n, v, h => by
    rw [childStub_cons_other] at h
    exact childStub_val rest n v h

theorem childWrap_val : ∀ (ch : List Child) (w b : String),
    childWrap ch w = some b → w = "Optional" ++ b
  | [], _, _, h => absurd h (fun hh => Option.noConfusion hh)
  | .fieldDecl fn ft :: rest, w, b, h => by
    rw [childWrap_cons_field] at h
    cases hs : wrapUpd ft w with
    | none => rw [hs, Option.none_or] at h; exact childWrap_val rest w b h
    | some u =>
      rw [hs] at h
      rw [← Option.some.inj h]
      exact wrapUpd_val ft w u hs
  | .other :: rest, w, b, h => by
    rw [childWrap_cons_other] at h
    exact childWrap_val rest w b h

theorem stubTop_val (t : TopLevel) (n : String) (v : List (String × String))
    (h : stubTop t n = some v) : v = [] := by
  cases t with
  | other => exact absurd h (fun hh => Option.noConfusion hh)
  | classDecl c => exact childStub_val c.children n v h

theorem wrapTop_val (t : TopLevel) (w b : String)
    (h : wrapTop t w = some b) : w = "Optional" ++ b := by
  cases t with
  | other => exact absurd h (fun hh => Option.noConfusion hh)
  | classDecl c => exact childWrap_val c.children w b h

theorem optionalName_inj (b₁ b₂ : String)
    (h : ("Optional" ++ b₁ : String) = "Optional" ++ b₂) : b₁ = b₂ := by
  have hd : ("Optional" ++ b₁ : String).data = ("Optional" ++ b₂ : String).data :=
    congrArg String.data h
  rw [String.data_append, String.data_append] at hd
  exact String.ext (List.append_cancel_left hd)

theorem storedName_some (t : TopLevel) (n : String)
    (h : storedName t = some n) : ∃ c, t = .classDecl c ∧ c.name = n := by
  cases t with
  | other => exact absurd h (fun hh => Option.noConfusion hh)
  | classDecl c =>
    refine ⟨c, rfl, ?_⟩
    have h' : (if c.name ≠ "" ∧ resFields c ≠ [] then some c.name else none)
        = some n := h
    by_cases hst : c.name ≠ "" ∧ resFields c ≠ []
    · rw [if_pos hst] at h'
      exact Option.some.inj h'
    · rw [if_neg hst] at h'
      exact absurd h' (fun hh => Option.noConfusion hh)

/-- Two walker steps with distinct (or absent) stored names commute up to
store extensionality. -/
theorem stepTop_comm (t₁ t₂ : TopLevel) (s : Store)
    (hd : ∀ n, ¬(storedName t₁ = some n ∧ storedName t₂ = some n)) :
    StoreEq (stepTop (stepTop s t₁) t₂) (stepTop (stepTop s t₂) t₁) := by
  constructor
  · intro n
    rw [(stepTop_spec (stepTop s t₁) t₂).1 n, (stepTop_spec s t₁).1 n,
        (stepTop_spec (stepTop s t₂) t₁).1 n, (stepTop_spec s t₂).1 n]
    by_cases h1 : storedName t₁ = some n <;> by_cases h2 : storedName t₂ = some n
    · exact absurd ⟨h1, h2⟩ (hd n)
    · rw [if_neg h2, if_pos h1, if_pos h1]
      rfl
    · rw [if_pos h2, if_neg h1, if_pos h2]
      rfl
    · rw [if_neg h1, if_neg h2, if_neg h1, if_neg h2]
      exact or_or_comm _ _ _ (fun x y hx hy =>
        (stubTop_val t₁ n x hx).trans (stubTop_val t₂ n y hy).symm)
  · intro w
    rw [(stepTop_spec (stepTop s t₁) t₂).2.1 w, (stepTop_spec s t₁).2.1 w,
        (stepTop_spec (stepTop s t₂) t₁).2.1 w, (stepTop_spec s t₂).2.1 w]
    exact or_or_comm _ _ _ (fun x y hx hy =>
      optionalName_inj x y ((wrapTop_val t₁ w x hx).symm.trans (wrapTop_val t₂ w y hy)))

/-! ## The full walk: congruence, permutation invariance, well-formedness -/

theorem storeEq_refl (s : Store) : StoreEq s s :=
  ⟨fun _ => rfl, fun _ => rfl⟩

theorem storeEq_trans {s₁ s₂ s₃ : Store} (h₁ : StoreEq s₁ s₂) (h₂ : StoreEq s₂ s₃) :
    StoreEq s₁ s₃ :=
  ⟨fun n => (h₁.1 n).trans (h₂.1 n), fun w => (h₁.2 w).trans (h₂.2 w)⟩

theorem stepTop_congr (t : TopLevel) {s₁ s₂ : Store} (h : StoreEq s₁ s₂) :
    StoreEq (stepTop s₁ t) (stepTop s₂ t) := by
  constructor
  · intro n
    rw [(stepTop_spec s₁ t).1 n, (stepTop_spec s₂ t).1 n, h.1 n]
  · intro w
    rw [(stepTop_spec s₁ t).2.1 w, (stepTop_spec s₂ t).2.1 w, h.2 w]

theorem runWalker_nil (s : Store) : runWalker [] s = s := rfl

theorem runWalker_cons (t : TopLevel) (l : List TopLevel) (s : Store) :
    runWalker (t :: l) s = runWalker l (stepTop s t) := rfl

theorem runWalker_append (l₁ l₂ : List TopLevel) (s : Store) :
    runWalker (l₁ ++ l₂) s = runWalker l₂ (runWalker l₁ s) := by
  unfold runWalker
  exact List.foldl_append _ _ _ _

theorem runWalker_congr (l : List TopLevel) : ∀ {s₁ s₂ : Store},
    StoreEq s₁ s₂ → StoreEq (runWalker l s₁) (runWalker l s₂) := by
  induction l with
  | nil => intro s₁ s₂ h; exact h
  | cons t l ih =>
    intro s₁ s₂ h
    rw [runWalker_cons, runWalker_cons]
    exact ih (stepTop_congr t h)

theorem runWalker_WF (l : List TopLevel) : ∀ (s : Store),
    WFStore s → WFStore (runWalker l s) := by
  induction l with
  | nil => intro s h; exact h
  | cons t l ih =>
    intro s h
    rw [runWalker_cons]
    exact ih _ ((stepTop_spec s t).2.2 h)

theorem emptyStore_WF : WFStore emptyStore :=
  ⟨List.nodup_nil, List.nodup_nil⟩

theorem classNames_cons_class (c : ClassDecl) (l : List TopLevel) :
    classNames (.classDecl c :: l) = c.name :: classNames l := rfl

theorem classNames_cons_other (l : List TopLevel) :
    classNames (.other :: l) = classNames l := rfl

theorem nodup_classNames_tail {x : TopLevel} {l : List TopLevel}
    (h : (classNames (x :: l)).Nodup) : (classNames l).Nodup := by
  cases x with
  | classDecl c =>
    rw [classNames_cons_class] at h
    exact (List.nodup_cons.mp h).2
  | other =>
    rw [classNames_cons_other] at h
    exact h

/-- Permutation invariance of the walk: over declaration streams that are
permutations of each other with duplicate-free class names, the resulting
stores are extensionally equal. -/
theorem runWalker_perm {l₁ l₂ : List TopLevel} (hp : l₁.Perm l₂) :
    (classNames l₁).Nodup → ∀ s, StoreEq (runWalker l₁ s) (runWalker l₂ s) := by
  induction hp with
  | nil => exact fun _ s => storeEq_refl s
  | cons x hp ih =>
    intro hnd s
    rw [runWalker_cons, runWalker_cons]
    exact ih (nodup_classNames_tail hnd) (stepTop s x)
  | swap x y l =>
    intro hnd s
    rw [runWalker_cons, runWalker_cons, runWalker_cons, runWalker_cons]
    refine runWalker_congr l (stepTop_comm y x s ?_)
    intro n ⟨hy, hx⟩
    obtain ⟨cy, hcy, hcyn⟩ := storedName_some y n hy
    obtain ⟨cx, hcx, hcxn⟩ := storedName_some x n hx
    rw [hcy, hcx] at hnd
    rw [classNames_cons_class, classNames_cons_class] at hnd
    have := (List.nodup_cons.mp hnd).1
    exact this (by rw [hcyn, hcxn]; exact List.mem_cons_self _ _)
  | trans h₁ h₂ ih₁ ih₂ =>
    rename_i la lb lc
    intro hnd s
    have hnd' : (List.filterMap (fun t => match t with
      | TopLevel.classDecl c => some c.name
      | TopLevel.other => none) la).Nodup := hnd
    have hnd₂ : (List.filterMap (fun t => match t with
      | TopLevel.classDecl c => some c.name
      | TopLevel.other => none) lb).Nodup :=
      (h₁.filterMap (fun t => match t with
        | TopLevel.classDecl c => some c.name
        | TopLevel.other => none)).nodup_iff.mp hnd'
    exact storeEq_trans (ih₁ hnd s) (ih₂ hnd₂ s)

/-! ## Emitter lemmas -/

theorem sortedKeys_perm {α : Type} (d : List (String × α)) :
    (sortedKeys d).Perm (dkeys d) :=
  List.perm_insertionSort strLeP (dkeys d)

theorem sortedKeys_sorted {α : Type} (d : List (String × α)) :
    List.Sorted strLeP (sortedKeys d) :=
  List.sorted_insertionSort strLeP (dkeys d)

theorem mem_sortedKeys {α : Type} (n : String) (d : List (String × α)) :
    n ∈ sortedKeys d ↔ (dlookup n d).isSome := by
  rw [(sortedKeys_perm d).mem_iff]
  exact mem_dkeys n d

theorem sortedKeys_nodup {α : Type} (d : List (String × α))
    (h : (dkeys d).Nodup) : (sortedKeys d).Nodup :=
  (sortedKeys_perm d).nodup_iff.mpr h

theorem sortedKeys_ext {α β : Type} (d₁ : List (String × α)) (d₂ : List (String × β))
    (h₁ : (dkeys d₁).Nodup) (h₂ : (dkeys d₂).Nodup)
    (h : ∀ n, (dlookup n d₁).isSome = (dlookup n d₂).isSome) :
    sortedKeys d₁ = sortedKeys d₂ := by
  refine List.eq_of_perm_of_sorted ?_ (sortedKeys_sorted d₁) (sortedKeys_sorted d₂)
  refine (List.perm_ext_iff_of_nodup (sortedKeys_nodup _ h₁)
    (sortedKeys_nodup _ h₂)).mpr ?_
  intro a
  rw [mem_sortedKeys, mem_sortedKeys, h a]

/-- The emitted text depends only on the store's lookup functions (given
well-formed key lists). -/
theorem capnpText_congr {s₁ s₂ : Store} (hw₁ : WFStore s₁) (hw₂ : WFStore s₂)
    (h : StoreEq s₁ s₂) : capnpText s₁ = capnpText s₂ := by
  unfold capnpText
  have hkc : sortedKeys s₁.classes = sortedKeys s₂.classes :=
    sortedKeys_ext _ _ hw₁.1 hw₂.1 (fun n => by rw [h.1 n])
  have hko : sortedKeys s₁.opts = sortedKeys s₂.opts :=
    sortedKeys_ext _ _ hw₁.2 hw₂.2 (fun w => by rw [h.2 w])
  have hfc : (fun n => structBlock n ((dlookup n s₁.classes).getD []))
      = (fun n => structBlock n ((dlookup n s₂.classes).getD [])) :=
    funext (fun n => by rw [h.1 n])
  have hfo : (fun w => optBlock w ((dlookup w s₁.opts).getD ""))
      = (fun w => optBlock w ((dlookup w s₂.opts).getD "")) :=
    funext (fun w => by rw [h.2 w])
  rw [hkc, hko, hfc, hfo]

/-! ## The vector-element priority order -/

/-- The element-pattern priority order of the sequence arm, first match
wins: `int`, then `float`, `double`, `bool`, `std::string`. -/
def listElemPriority : List (String × String) :=
  [("int", "List(Int32)"),
   ("float", "List(Float32)"),
   ("double", "List(Float64)"),
   ("bool", "List(Bool)"),
   ("std::string", "List(Text)")]

/-- First-match semantics over the priority order, with the list-of-text
fallback (the spec's formulation of the sequence arm). -/
def priorityListType (inner : String) : String :=
  (listElemPriority.findSome? (fun p =>
    if strContains inner p.1 then some p.2 else none)).getD "List(Text)"

/-- The source's if-chain equals the first-match fold over the priority
order. -/
theorem vectorListType_eq_priority (sp : String) :
    vectorListType sp = priorityListType
      (pyStrip (pySlice sp ((pyFind sp '<').toNat + 1) (pyRFind sp '>').toNat)) := by
  unfold vectorListType priorityListType listElemPriority
  by_cases h1 : strContains
      (pyStrip (pySlice sp ((pyFind sp '<').toNat + 1) (pyRFind sp '>').toNat)) "int" = true
  · rw [if_pos h1, findSome?_cons_or, if_pos h1]
    rfl
  · rw [if_neg h1, findSome?_cons_or, if_neg h1, Option.none_or]
    by_cases h2 : strContains
        (pyStrip (pySlice sp ((pyFind sp '<').toNat + 1) (pyRFind sp '>').toNat)) "float" = true
    · rw [if_pos h2, findSome?_cons_or, if_pos h2]
      rfl
    · rw [if_neg h2, findSome?_cons_or, if_neg h2, Option.none_or]
      by_cases h3 : strContains
          (pyStrip (pySlice sp ((pyFind sp '<').toNat + 1) (pyRFind sp '>').toNat)) "double" = true
      · rw [if_pos h3, findSome?_cons_or, if_pos h3]
        rfl
      · rw [if_neg h3, findSome?_cons_or, if_neg h3, Option.none_or]
        by_cases h4 : strContains
            (pyStrip (pySlice sp ((pyFind sp '<').toNat + 1) (pyRFind sp '>').toNat)) "bool" = true
        · rw [if_pos h4, findSome?_cons_or, if_pos h4]
          rfl
        · rw [if_neg h4, findSome?_cons_or, if_neg h4, Option.none_or]
          by_cases h5 : strContains
              (pyStrip (pySlice sp ((pyFind sp '<').toNat + 1) (pyRFind sp '>').toNat)) "std::string" = true
          · rw [if_pos h5, findSome?_cons_or, if_pos h5]
            rfl
          · rw [if_neg h5, findSome?_cons_or, if_neg h5, Option.none_or]
            rfl

/-- Registration is skipped when the class key is already present. -/
theorem registerStub_skip (b : String) (s : Store)
    (h : (dlookup b s.classes).isSome) : registerStub b s = s := by
  unfold registerStub
  rw [if_pos h]

/-- Registration is skipped when the wrapper key is already present. -/
theorem registerWrap_skip (w b : String) (s : Store)
    (h : (dlookup w s.opts).isSome) : registerWrap w b s = s := by
  unfold registerWrap
  rw [if_pos h]

/-! ## Persistence of stored entries and positional field rendering -/

/-- A class entry survives a walk that never stores its name again (stub
registrations never overwrite an existing entry). -/
theorem runWalker_preserve (l : List TopLevel) (n : String)
    (v : List (String × String)) :
    ∀ s : Store, dlookup n s.classes = some v →
    (∀ t ∈ l, storedName t ≠ some n) →
    dlookup n (runWalker l s).classes = some v := by
  induction l with
  | nil => exact fun s hv _ => hv
  | cons t l ih =>
    intro s hv hall
    rw [runWalker_cons]
    refine ih _ ?_ (fun t' ht' => hall t' (List.mem_cons_of_mem _ ht'))
    rw [(stepTop_spec s t).1 n, if_neg (hall t (List.mem_cons_self _ _)), hv]
    rfl

theorem fieldLines_length : ∀ (fs : List (String × String)) (i : Nat),
    (fieldLines i fs).length = fs.length
  | [], _ => rfl
  | (fn, ty) :: rest, i => by
    show (("  " ++ pyLower fn ++ " @" ++ toString i ++ " :" ++ ty ++ ";\n")
      :: fieldLines (i + 1) rest).length = rest.length + 1
    rw [List.length_cons, fieldLines_length rest (i + 1)]

/-- The `k`-th emitted field line carries index `i + k` and the `k`-th
field of the list: emission is positional. -/
theorem fieldLines_get : ∀ (fs : List (String × String)) (i k : Nat)
    (hk : k < fs.length),
    (fieldLines i fs).get ⟨k, by rw [fieldLines_length]; exact hk⟩ =
      "  " ++ pyLower (fs.get ⟨k, hk⟩).1 ++ " @" ++ toString (i + k) ++ " :"
        ++ (fs.get ⟨k, hk⟩).2 ++ ";\n"
  | [], _, k, hk => absurd hk (by simp)
  | (fn, ty) :: rest, i, 0, hk => by
    show ("  " ++ pyLower fn ++ " @" ++ toString i ++ " :" ++ ty ++ ";\n") = _
    rw [Nat.add_zero]
    rfl
  | (fn, ty) :: rest, i, k + 1, hk => by
    have hk' : k < rest.length := Nat.lt_of_succ_lt_succ hk
    show (fieldLines (i + 1) rest).get ⟨k, by rw [fieldLines_length]; exact hk'⟩ = _
    rw [fieldLines_get rest (i + 1) k hk']
    have harith : i + 1 + k = i + (k + 1) := by omega
    rw [harith]
    rfl

/-- The resolved field names are the declared field names, in order. -/
theorem resolveChildren_names : ∀ ch : List Child,
    (resolveChildren ch).map Prod.fst = ch.filterMap (fun c => match c with
      | Child.fieldDecl fn _ => some fn
      | Child.other => none)
  | [] => rfl
  | .fieldDecl fn ft :: rest => by
    show (fn, classifyPure ft).1 :: (resolveChildren rest).map Prod.fst
      = fn :: rest.filterMap _
    rw [resolveChildren_names rest]
  | .other :: rest => by
    show (resolveChildren rest).map Prod.fst = rest.filterMap _
    exact resolveChildren_names rest

/-! ## The wrapper-registry invariant -/

theorem or_isSome_right {α : Type} {x y : Option α} (h : y.isSome) :
    (x.or y).isSome := by
  cases x with
  | some a => rfl
  | none => exact h

theorem stepTop_classes_mono (s : Store) (t : TopLevel) (n : String)
    (h : (dlookup n s.classes).isSome) :
    (dlookup n (stepTop s t).classes).isSome := by
  rw [(stepTop_spec s t).1 n]
  by_cases hs : storedName t = some n
  · rw [if_pos hs]; rfl
  · rw [if_neg hs]
    obtain ⟨v, hv⟩ := Option.isSome_iff_exists.mp h
    rw [hv]; rfl

theorem stepTop_opts_mono (s : Store) (t : TopLevel) (w : String)
    (h : (dlookup w s.opts).isSome) :
    (dlookup w (stepTop s t).opts).isSome := by
  rw [(stepTop_spec s t).2.1 w]
  obtain ⟨v, hv⟩ := Option.isSome_iff_exists.mp h
  rw [hv]; rfl

theorem ftWrap_imp_ftStub (ft : FieldType) (b : String)
    (h : ftWrap ft = some b) : ftStub ft = some b := by
  unfold ftWrap at h
  unfold ftStub
  revert h
  cases hc : fieldCase ft <;> intro h <;>
    first
      | exact h
      | exact absurd h (fun hh : (none : Option String) = some b =>
          Option.noConfusion hh)

theorem wrapUpd_some_ftWrap (ft : FieldType) (w b : String)
    (h : wrapUpd ft w = some b) : ftWrap ft = some b := by
  unfold wrapUpd at h
  cases hf : ftWrap ft with
  | none => rw [hf] at h; exact absurd h (fun hh => Option.noConfusion hh)
  | some b' =>
    rw [hf] at h
    have h' : (if w = "Optional" ++ b' then some b' else none) = some b := h
    by_cases hw : w = "Optional" ++ b'
    · rw [if_pos hw] at h'
      exact congrArg some (Option.some.inj h')
    · rw [if_neg hw] at h'
      exact absurd h' (fun hh => Option.noConfusion hh)

theorem stubUpd_self (ft : FieldType) (b : String)
    (h : ftStub ft = some b) : stubUpd ft b = some [] := by
  unfold stubUpd
  rw [if_pos h]

/-- A field that registered a wrapper also registered the wrapped class's
stub in the same pass. -/
theorem childWrap_imp_stub : ∀ (ch : List Child) (w b : String),
    childWrap ch w = some b → (childStub ch b).isSome
  | [], _, _, h => absurd h (fun hh => Option.noConfusion hh)
  | .fieldDecl fn ft :: rest, w, b, h => by
    rw [childWrap_cons_field] at h
    rw [childStub_cons_field]
    cases hu : wrapUpd ft w with
    | some u =>
      rw [hu] at h
      have hub : u = b := Option.some.inj h
      have hfw : ftWrap ft = some b := hub ▸ wrapUpd_some_ftWrap ft w u hu
      rw [stubUpd_self ft b (ftWrap_imp_ftStub ft b hfw)]
      rfl
    | none =>
      rw [hu, Option.none_or] at h
      exact or_isSome_right (childWrap_imp_stub rest w b h)
  | .other :: rest, w, b, h => by
    rw [childWrap_cons_other] at h
    rw [childStub_cons_other]
    exact childWrap_imp_stub rest w b h

/-- The wrapper-registry invariant: every wrapper entry's name is
`"Optional" + base`, and the base is a registered class. -/
def InvWrap (s : Store) : Prop :=
  ∀ w b, dlookup w s.opts = some b →
    w = "Optional" ++ b ∧ (dlookup b s.classes).isSome

theorem stepTop_InvWrap (s : Store) (t : TopLevel) (h : InvWrap s) :
    InvWrap (stepTop s t) := by
  intro w b hwb
  rw [(stepTop_spec s t).2.1 w] at hwb
  cases ho : dlookup w s.opts with
  | some b' =>
    rw [ho] at hwb
    have hb : b' = b := Option.some.inj hwb
    obtain ⟨h1, h2⟩ := h w b' ho
    subst hb
    exact ⟨h1, stepTop_classes_mono s t _ h2⟩
  | none =>
    rw [ho, Option.none_or] at hwb
    refine ⟨wrapTop_val t w b hwb, ?_⟩
    rw [(stepTop_spec s t).1 b]
    by_cases hs : storedName t = some b
    · rw [if_pos hs]; rfl
    · rw [if_neg hs]
      refine or_isSome_right ?_
      cases t with
      | other => exact absurd hwb (fun hh => Option.noConfusion hh)
      | classDecl c => exact childWrap_imp_stub c.children w b hwb

theorem runWalker_InvWrap (l : List TopLevel) : ∀ s : Store,
    InvWrap s → InvWrap (runWalker l s) := by
  induction l with
  | nil => exact fun s h => h
  | cons t l ih =>
    intro s h
    rw [runWalker_cons]
    exact ih _ (stepTop_InvWrap s t h)

theorem emptyStore_InvWrap : InvWrap emptyStore :=
  fun _ _ h => absurd h (fun hh => Option.noConfusion hh)

/-! ## Closure of emitted type references -/

/-- The target type names the emitter may reference without a
corresponding emitted block: fixed primitives, the fixed list types, and
the five fixed primitive-optional wrapper names (which the classifier
returns without registering them). -/
def basePrims : List String :=
  ["Int32", "UInt32", "Int64", "UInt64", "Float32", "Float64", "Bool", "Text",
   "List(Int32)", "List(Float32)", "List(Float64)", "List(Bool)", "List(Text)",
   "OptionalInt32", "OptionalShort", "OptionalFloat32", "OptionalFloat64",
   "OptionalInt64"]

theorem OTM_mem (b w : String) (h : dlookup b OPTIONAL_TYPE_MAP = some w) :
    w ∈ basePrims := by
  unfold OPTIONAL_TYPE_MAP at h
  by_cases h1 : ("int" : String) = b
  · rw [dlookup_cons_eq h1] at h
    rw [← Option.some.inj h]; decide
  · rw [dlookup_cons_ne h1] at h
    by_cases h2 : ("short" : String) = b
    · rw [dlookup_cons_eq h2] at h
      rw [← Option.some.inj h]; decide
    · rw [dlookup_cons_ne h2] at h
      by_cases h3 : ("float" : String) = b
      · rw [dlookup_cons_eq h3] at h
        rw [← Option.some.inj h]; decide
      · rw [dlookup_cons_ne h3] at h
        by_cases h4 : ("double" : String) = b
        · rw [dlookup_cons_eq h4] at h
          rw [← Option.some.inj h]; decide
        · rw [dlookup_cons_ne h4] at h
          by_cases h5 : ("long long" : String) = b
          · rw [dlookup_cons_eq h5] at h
            rw [← Option.some.inj h]; decide
          · rw [dlookup_cons_ne h5] at h
            exact absurd h (fun hh => Option.noConfusion hh)

theorem mapBuiltin_mem (k : TypeKind) (t : String) (h : mapBuiltin k = some t) :
    t ∈ basePrims := by
  cases k <;>
    first
      | (rw [← Option.some.inj h]; decide)
      | exact absurd h (fun hh : (none : Option String) = some t =>
          Option.noConfusion hh)

theorem listChain_mem (inner : String) :
    (if strContains inner "int" then "List(Int32)"
     else if strContains inner "float" then "List(Float32)"
     else if strContains inner "double" then "List(Float64)"
     else if strContains inner "bool" then "List(Bool)"
     else if strContains inner "std::string" then "List(Text)"
     else "List(Text)") ∈ basePrims := by
  split_ifs <;> decide

theorem vectorListType_mem (sp : String) : vectorListType sp ∈ basePrims :=
  listChain_mem _

/-- Every classification outcome is a fixed external type, the name of a
wrapper this very field registers, or the name of a class this very field
stub-registers. -/
theorem classify_allowed (ft : FieldType) :
    classifyPure ft ∈ basePrims ∨
    (∃ b, ftWrap ft = some b ∧ classifyPure ft = "Optional" ++ b) ∨
    ftStub ft = some (classifyPure ft) := by
  by_cases h : strContains ft.spelling "boost::optional<" = true
  · cases hp : parseBoostOptional ft.spelling with
    | none =>
      have hc := (case_optMalformed ft emptyStore h hp).1
      left
      unfold classifyPure
      rw [hc]
      show "Text" ∈ basePrims
      decide
    | some b =>
      cases hm : dlookup b OPTIONAL_TYPE_MAP with
      | some w =>
        have hc := (case_optPrim ft emptyStore b w h hp hm).1
        left
        unfold classifyPure
        rw [hc]
        exact OTM_mem b w hm
      | none =>
        have hc := (case_optClass ft emptyStore b h hp hm).1
        right; left
        refine ⟨b, ?_, ?_⟩
        · unfold ftWrap; rw [hc]
        · unfold classifyPure; rw [hc]
  · have hf := bool_eq_false_of_ne h
    cases hb : mapBuiltin ft.kind with
    | some t =>
      have hc := (case_builtin ft emptyStore t hf hb).1
      left
      unfold classifyPure
      rw [hc]
      exact mapBuiltin_mem ft.kind t hb
    | none =>
      by_cases hr : ft.kind = TypeKind.RECORD
      · by_cases hbs : strContains ft.spelling "std::basic_string" = true
        · have hc := (case_basicStr ft emptyStore hf hb hr hbs).1
          left
          unfold classifyPure
          rw [hc]
          show "Text" ∈ basePrims
          decide
        · have hbsf := bool_eq_false_of_ne hbs
          by_cases hv : vectorBranch ft.spelling = true
          · have hc := (case_vector ft emptyStore hf hb hr hbsf hv).1
            left
            unfold classifyPure
            rw [hc]
            exact vectorListType_mem ft.spelling
          · have hvf := bool_eq_false_of_ne hv
            have hc := (case_classRef ft emptyStore hf hb hr hbsf hvf).1
            right; right
            unfold ftStub classifyPure
            rw [hc]
      · have hc := (case_fallback ft emptyStore hf hb hr).1
        left
        unfold classifyPure
        rw [hc]
        show "Text" ∈ basePrims
        decide

/-- Inversion of field resolution: every resolved field comes from a
declared field, with the pure classification as its type. -/
theorem mem_resolveChildren (ch : List Child) (p : String × String)
    (hp : p ∈ resolveChildren ch) :
    ∃ fn ft, Child.fieldDecl fn ft ∈ ch ∧ p = (fn, classifyPure ft) := by
  unfold resolveChildren at hp
  obtain ⟨c, hc, hfc⟩ := List.mem_filterMap.mp hp
  cases c with
  | fieldDecl fn ft => exact ⟨fn, ft, hc, (Option.some.inj hfc).symm⟩
  | other => exact absurd hfc (fun hh => Option.noConfusion hh)

theorem wrapUpd_self (ft : FieldType) (b : String) (h : ftWrap ft = some b) :
    wrapUpd ft ("Optional" ++ b) = some b := by
  unfold wrapUpd
  rw [h]
  show (if ("Optional" ++ b : String) = "Optional" ++ b then some b else none)
    = some b
  rw [if_pos rfl]

theorem childStub_isSome_of_mem : ∀ (ch : List Child) (fn : String)
    (ft : FieldType) (x : String), Child.fieldDecl fn ft ∈ ch →
    ftStub ft = some x → (childStub ch x).isSome
  | [], fn, ft, x, hmem, _ => absurd hmem (List.not_mem_nil _)
  | c :: rest, fn, ft, x, hmem, hst => by
    cases List.mem_cons.mp hmem with
    | inl he =>
      rw [← he, childStub_cons_field, stubUpd_self ft x hst]
      rfl
    | inr hm =>
      cases c with
      | fieldDecl fn' ft' =>
        rw [childStub_cons_field]
        exact or_isSome_right (childStub_isSome_of_mem rest fn ft x hm hst)
      | other =>
        rw [childStub_cons_other]
        exact childStub_isSome_of_mem rest fn ft x hm hst

theorem childWrap_isSome_of_mem : ∀ (ch : List Child) (fn : String)
    (ft : FieldType) (b : String), Child.fieldDecl fn ft ∈ ch →
    ftWrap ft = some b → (childWrap ch ("Optional" ++ b)).isSome
  | [], fn, ft, b, hmem, _ => absurd hmem (List.not_mem_nil _)
  | c :: rest, fn, ft, b, hmem, hw => by
    cases List.mem_cons.mp hmem with
    | inl he =>
      rw [← he, childWrap_cons_field, wrapUpd_self ft b hw]
      rfl
    | inr hm =>
      cases c with
      | fieldDecl fn' ft' =>
        rw [childWrap_cons_field]
        exact or_isSome_right (childWrap_isSome_of_mem rest fn ft b hm hw)
      | other =>
        rw [childWrap_cons_other]
        exact childWrap_isSome_of_mem rest fn ft b hm hw

/-- A type name the emitter may reference in the given store: a fixed
external name, a registered class, or a registered wrapper. -/
def AllowedIn (s : Store) (t : String) : Prop :=
  t ∈ basePrims ∨ (dlookup t s.classes).isSome ∨ (dlookup t s.opts).isSome

/-- Closure invariant: every type referenced by a stored field list is
allowed in the store. -/
def InvTypes (s : Store) : Prop :=
  ∀ n fs, dlookup n s.classes = some fs → ∀ p ∈ fs, AllowedIn s p.2

theorem stepTop_AllowedIn (s : Store) (t : TopLevel) (x : String)
    (h : AllowedIn s x) : AllowedIn (stepTop s t) x := by
  rcases h with h | h | h
  · exact Or.inl h
  · exact Or.inr (Or.inl (stepTop_classes_mono s t x h))
  · exact Or.inr (Or.inr (stepTop_opts_mono s t x h))

theorem stepTop_InvTypes (s : Store) (t : TopLevel) (hI : InvTypes s) :
    InvTypes (stepTop s t) := by
  intro n fs hfs p hp
  rw [(stepTop_spec s t).1 n] at hfs
  by_cases hsn : storedName t = some n
  · rw [if_pos hsn] at hfs
    obtain ⟨c, hct, hcn⟩ := storedName_some t n hsn
    subst hct
    have hfs' : resFields c = fs := Option.some.inj hfs
    rw [← hfs'] at hp
    obtain ⟨fn, ft, hmem, hpe⟩ := mem_resolveChildren c.children p hp
    rw [hpe]
    show AllowedIn (stepTop s (.classDecl c)) (classifyPure ft)
    rcases classify_allowed ft with hbp | ⟨b, hw, hcp⟩ | hst
    · exact Or.inl hbp
    · right; right
      rw [hcp, (stepTop_spec s (.classDecl c)).2.1]
      exact or_isSome_right (childWrap_isSome_of_mem c.children fn ft b hmem hw)
    · right; left
      rw [(stepTop_spec s (.classDecl c)).1 (classifyPure ft)]
      by_cases hsn2 : storedName (.classDecl c) = some (classifyPure ft)
      · rw [if_pos hsn2]; rfl
      · rw [if_neg hsn2]
        exact or_isSome_right
          (childStub_isSome_of_mem c.children fn ft _ hmem hst)
  · rw [if_neg hsn] at hfs
    cases hcs : dlookup n s.classes with
    | some fs' =>
      rw [hcs] at hfs
      have he : fs' = fs := Option.some.inj hfs
      subst he
      exact stepTop_AllowedIn s t p.2 (hI n fs' hcs p hp)
    | none =>
      rw [hcs, Option.none_or] at hfs
      have he : fs = [] := stubTop_val t n fs hfs
      rw [he] at hp
      exact absurd hp (List.not_mem_nil p)

theorem runWalker_InvTypes (l : List TopLevel) : ∀ s : Store,
    InvTypes s → InvTypes (runWalker l s) := by
  induction l with
  | nil => exact fun s h => h
  | cons t l ih =>
    intro s h
    rw [runWalker_cons]
    exact ih _ (stepTop_InvTypes s t h)

theorem emptyStore_InvTypes : InvTypes emptyStore :=
  fun _ _ h => absurd h (fun hh => Option.noConfusion hh)

/-! ## Claim theorems -/

/-- C4: Determinism under reordering — running the walker plus emitter over
two input sequences of declarations that are permutations of the same set
of (name, fields) pairs, with no duplicate class names, produces
byte-identical schema text. -/
theorem c4_determinism (l₁ l₂ : List TopLevel)
    (hp : l₁.Perm l₂) (hnd : (classNames l₁).Nodup) :
    capnpText (runStore l₁) = capnpText (runStore l₂) :=
  capnpText_congr (runWalker_WF l₁ emptyStore emptyStore_WF)
    (runWalker_WF l₂ emptyStore emptyStore_WF)
    (runWalker_perm hp hnd emptyStore)

/-- C1 (counterexample): an optional of a primitive produces a reference
to the fixed wrapper `OptionalInt32`, but no block with that name is
emitted — the emitted block names are exactly `["A"]` — so the claimed
closure including the fixed primitive wrappers fails. -/
theorem c1_closure_counterexample :
    dlookup "A" (runStore [TopLevel.classDecl
      ⟨"A", [.fieldDecl "x" ⟨"boost::optional<int>", .RECORD⟩]⟩]).classes
      = some [("x", "OptionalInt32")] ∧
    sortedKeys (runStore [TopLevel.classDecl
      ⟨"A", [.fieldDecl "x" ⟨"boost::optional<int>", .RECORD⟩]⟩]).classes
      = ["A"] ∧
    sortedKeys (runStore [TopLevel.classDecl
      ⟨"A", [.fieldDecl "x" ⟨"boost::optional<int>", .RECORD⟩]⟩]).opts = [] ∧
    ¬("OptionalInt32" ∈ sortedKeys (runStore [TopLevel.classDecl
        ⟨"A", [.fieldDecl "x" ⟨"boost::optional<int>", .RECORD⟩]⟩]).classes ∨
      "OptionalInt32" ∈ sortedKeys (runStore [TopLevel.classDecl
        ⟨"A", [.fieldDecl "x" ⟨"boost::optional<int>", .RECORD⟩]⟩]).opts) := by
  refine ⟨by decide, by decide, by decide, by decide⟩

/-- C1 (amended): Closure up to the fixed external names — for every
store producible by any input sequence, every type referenced in a stored
field list is either a fixed primitive/list type or one of the five fixed
primitive wrapper names (assumed externally defined, never emitted), or
names an emitted class or wrapper block; and every wrapper block's value
type names an emitted class block. -/
theorem c1_closure_amended (l : List TopLevel) :
    (∀ n fs, dlookup n (runStore l).classes = some fs → ∀ p ∈ fs,
      p.2 ∈ basePrims ∨ p.2 ∈ sortedKeys (runStore l).classes ∨
        p.2 ∈ sortedKeys (runStore l).opts) ∧
    (∀ w b, dlookup w (runStore l).opts = some b →
      b ∈ sortedKeys (runStore l).classes) := by
  constructor
  · intro n fs hfs p hp
    rcases runWalker_InvTypes l emptyStore emptyStore_InvTypes n fs hfs p hp
      with h | h | h
    · exact Or.inl h
    · exact Or.inr (Or.inl ((mem_sortedKeys _ _).mpr h))
    · exact Or.inr (Or.inr ((mem_sortedKeys _ _).mpr h))
  · intro w b h
    exact (mem_sortedKeys _ _).mpr
      (runWalker_InvWrap l emptyStore emptyStore_InvWrap w b h).2

theorem c1_closure_amended_witness :
    dlookup "Shape" (runStore [TopLevel.classDecl
      ⟨"Shape", [.fieldDecl "c" ⟨"boost::optional<Pt>", .RECORD⟩]⟩]).classes
      = some [("c", "OptionalPt")] ∧
    (("c", "OptionalPt") : String × String) ∈ [(("c", "OptionalPt") : String × String)] ∧
    (("OptionalPt" : String) ∈ basePrims ∨
      "OptionalPt" ∈ sortedKeys (runStore [TopLevel.classDecl
        ⟨"Shape", [.fieldDecl "c" ⟨"boost::optional<Pt>", .RECORD⟩]⟩]).classes ∨
      "OptionalPt" ∈ sortedKeys (runStore [TopLevel.classDecl
        ⟨"Shape", [.fieldDecl "c" ⟨"boost::optional<Pt>", .RECORD⟩]⟩]).opts) :=
  ⟨by decide, by decide,
    (c1_closure_amended [TopLevel.classDecl
      ⟨"Shape", [.fieldDecl "c" ⟨"boost::optional<Pt>", .RECORD⟩]⟩]).1
      "Shape" [("c", "OptionalPt")] (by decide) ("c", "OptionalPt") (by decide)⟩

/-- C10: Wrapper-registry invariant — after any run, every entry
(wrapperName, baseName) of the optional-wrapper registry satisfies
wrapperName = "Optional" + baseName with baseName registered as a class,
so every emitted wrapper block references a class block that is also
emitted. -/
theorem c10_wrapper_registry (l : List TopLevel) (w b : String)
    (h : dlookup w (runStore l).opts = some b) :
    w = "Optional" ++ b ∧ (dlookup b (runStore l).classes).isSome ∧
    b ∈ sortedKeys (runStore l).classes := by
  obtain ⟨h1, h2⟩ := runWalker_InvWrap l emptyStore emptyStore_InvWrap w b h
  exact ⟨h1, h2, (mem_sortedKeys b _).mpr h2⟩

theorem c10_wrapper_registry_witness :
    dlookup "OptionalFoo" (runStore [TopLevel.classDecl
      ⟨"A", [.fieldDecl "c" ⟨"boost::optional<Foo>", .RECORD⟩]⟩]).opts
      = some "Foo" ∧
    ("OptionalFoo" = "Optional" ++ "Foo" ∧
      (dlookup "Foo" (runStore [TopLevel.classDecl
        ⟨"A", [.fieldDecl "c" ⟨"boost::optional<Foo>", .RECORD⟩]⟩]).classes).isSome ∧
      "Foo" ∈ sortedKeys (runStore [TopLevel.classDecl
        ⟨"A", [.fieldDecl "c" ⟨"boost::optional<Foo>", .RECORD⟩]⟩]).classes) :=
  ⟨by decide,
    c10_wrapper_registry [TopLevel.classDecl
      ⟨"A", [.fieldDecl "c" ⟨"boost::optional<Foo>", .RECORD⟩]⟩]
      "OptionalFoo" "Foo" (by decide)⟩

/-- C5: Last write wins — when two top-level declarations (each with at
least one field) share a record name and nothing after the second stores
that name again, the final store holds the second declaration's resolved
field list, and the record's name appears exactly once among the emitted
struct-block names. -/
theorem c5_last_write_wins (l₁ l₂ l₃ : List TopLevel) (d₁ d₂ : ClassDecl)
    (hn : d₁.name = d₂.name)
    (hne1 : d₁.name ≠ "") (hf1 : resFields d₁ ≠ [])
    (hne2 : d₂.name ≠ "") (hf2 : resFields d₂ ≠ [])
    (hafter : ∀ t ∈ l₃, storedName t ≠ some d₂.name) :
    dlookup d₂.name (runStore (l₁ ++ TopLevel.classDecl d₁ ::
      (l₂ ++ TopLevel.classDecl d₂ :: l₃))).classes = some (resFields d₂) ∧
    (sortedKeys (runStore (l₁ ++ TopLevel.classDecl d₁ ::
      (l₂ ++ TopLevel.classDecl d₂ :: l₃))).classes).count d₂.name = 1 := by
  have hrun : runStore (l₁ ++ TopLevel.classDecl d₁ ::
      (l₂ ++ TopLevel.classDecl d₂ :: l₃)) =
      runWalker l₃ (stepTop
        (runWalker l₂ (stepTop (runWalker l₁ emptyStore) (.classDecl d₁)))
        (.classDecl d₂)) := by
    unfold runStore
    rw [runWalker_append, runWalker_cons, runWalker_append, runWalker_cons]
  have hsn : storedName (.classDecl d₂) = some d₂.name := by
    show (if d₂.name ≠ "" ∧ resFields d₂ ≠ [] then some d₂.name else none) = _
    rw [if_pos ⟨hne2, hf2⟩]
  have hstep : dlookup d₂.name (stepTop
      (runWalker l₂ (stepTop (runWalker l₁ emptyStore) (.classDecl d₁)))
      (.classDecl d₂)).classes = some (resFields d₂) := by
    rw [(stepTop_spec _ (.classDecl d₂)).1 d₂.name, hsn, if_pos rfl]
    rfl
  have hfinal : dlookup d₂.name (runStore (l₁ ++ TopLevel.classDecl d₁ ::
      (l₂ ++ TopLevel.classDecl d₂ :: l₃))).classes = some (resFields d₂) := by
    rw [hrun]
    exact runWalker_preserve l₃ d₂.name _ _ hstep hafter
  refine ⟨hfinal, ?_⟩
  have hWF : WFStore (runStore (l₁ ++ TopLevel.classDecl d₁ ::
      (l₂ ++ TopLevel.classDecl d₂ :: l₃))) :=
    runWalker_WF _ emptyStore emptyStore_WF
  exact List.count_eq_one_of_mem (sortedKeys_nodup _ hWF.1)
    ((mem_sortedKeys _ _).mpr (by rw [hfinal]; rfl))

theorem c5_last_write_wins_witness :
    (⟨"A", [.fieldDecl "x" ⟨"int", .INT⟩]⟩ : ClassDecl).name
      = (⟨"A", [.fieldDecl "y" ⟨"double", .DOUBLE⟩]⟩ : ClassDecl).name ∧
    resFields (⟨"A", [.fieldDecl "x" ⟨"int", .INT⟩]⟩ : ClassDecl) ≠ [] ∧
    resFields (⟨"A", [.fieldDecl "y" ⟨"double", .DOUBLE⟩]⟩ : ClassDecl) ≠ [] ∧
    (dlookup "A" (runStore ([] ++ TopLevel.classDecl
        ⟨"A", [.fieldDecl "x" ⟨"int", .INT⟩]⟩ ::
      ([] ++ TopLevel.classDecl ⟨"A", [.fieldDecl "y" ⟨"double", .DOUBLE⟩]⟩ ::
        []))).classes
      = some (resFields (⟨"A", [.fieldDecl "y" ⟨"double", .DOUBLE⟩]⟩ : ClassDecl)) ∧
    (sortedKeys (runStore ([] ++ TopLevel.classDecl
        ⟨"A", [.fieldDecl "x" ⟨"int", .INT⟩]⟩ ::
      ([] ++ TopLevel.classDecl ⟨"A", [.fieldDecl "y" ⟨"double", .DOUBLE⟩]⟩ ::
        []))).classes).count "A" = 1) :=
  ⟨rfl, by decide, by decide,
    c5_last_write_wins [] [] [] ⟨"A", [.fieldDecl "x" ⟨"int", .INT⟩]⟩
      ⟨"A", [.fieldDecl "y" ⟨"double", .DOUBLE⟩]⟩ rfl (by decide) (by decide)
      (by decide) (by decide) (fun t ht => absurd ht (List.not_mem_nil t))⟩

/-- C8: Field order preservation — the record stored for a declaration is
its field list resolved in declaration order (names in declaration order),
and the emitter's field lines are positional: the k-th line of a block
carries index k and the k-th resolved field, independent of the
alphabetical sorting of record blocks. -/
theorem c8_field_order (l₁ l₂ : List TopLevel) (d : ClassDecl)
    (hne : d.name ≠ "") (hf : resFields d ≠ [])
    (hafter : ∀ t ∈ l₂, storedName t ≠ some d.name) :
    dlookup d.name (runStore (l₁ ++ TopLevel.classDecl d :: l₂)).classes
      = some (resFields d) ∧
    (resFields d).map Prod.fst = d.children.filterMap (fun c => match c with
      | Child.fieldDecl fn _ => some fn
      | Child.other => none) ∧
    (fieldLines 0 (resFields d)).length = (resFields d).length ∧
    (∀ k (hk : k < (resFields d).length),
      (fieldLines 0 (resFields d)).get ⟨k, by rw [fieldLines_length]; exact hk⟩ =
        "  " ++ pyLower ((resFields d).get ⟨k, hk⟩).1 ++ " @" ++ toString k ++ " :"
          ++ ((resFields d).get ⟨k, hk⟩).2 ++ ";\n") := by
  refine ⟨?_, resolveChildren_names d.children, fieldLines_length _ 0, fun k hk => ?_⟩
  · have hrun : runStore (l₁ ++ TopLevel.classDecl d :: l₂) =
        runWalker l₂ (stepTop (runWalker l₁ emptyStore) (.classDecl d)) := by
      unfold runStore
      rw [runWalker_append, runWalker_cons]
    rw [hrun]
    refine runWalker_preserve l₂ d.name _ _ ?_ hafter
    have hsn : storedName (.classDecl d) = some d.name := by
      show (if d.name ≠ "" ∧ resFields d ≠ [] then some d.name else none) = _
      rw [if_pos ⟨hne, hf⟩]
    rw [(stepTop_spec _ (.classDecl d)).1 d.name, hsn, if_pos rfl]
    rfl
  · rw [fieldLines_get (resFields d) 0 k hk, Nat.zero_add]

theorem c8_field_order_witness :
    (⟨"Zed", [.fieldDecl "B" ⟨"int", .INT⟩, .fieldDecl "a" ⟨"bool", .BOOL⟩]⟩
      : ClassDecl).name ≠ "" ∧
    resFields (⟨"Zed", [.fieldDecl "B" ⟨"int", .INT⟩,
      .fieldDecl "a" ⟨"bool", .BOOL⟩]⟩ : ClassDecl) ≠ [] ∧
    (dlookup "Zed" (runStore ([] ++ TopLevel.classDecl
        ⟨"Zed", [.fieldDecl "B" ⟨"int", .INT⟩, .fieldDecl "a" ⟨"bool", .BOOL⟩]⟩
        :: [])).classes
      = some (resFields (⟨"Zed", [.fieldDecl "B" ⟨"int", .INT⟩,
          .fieldDecl "a" ⟨"bool", .BOOL⟩]⟩ : ClassDecl)) ∧
    (resFields (⟨"Zed", [.fieldDecl "B" ⟨"int", .INT⟩,
        .fieldDecl "a" ⟨"bool", .BOOL⟩]⟩ : ClassDecl)).map Prod.fst
      = (⟨"Zed", [.fieldDecl "B" ⟨"int", .INT⟩, .fieldDecl "a" ⟨"bool", .BOOL⟩]⟩
        : ClassDecl).children.filterMap (fun c => match c with
          | Child.fieldDecl fn _ => some fn
          | Child.other => none) ∧
    (fieldLines 0 (resFields (⟨"Zed", [.fieldDecl "B" ⟨"int", .INT⟩,
        .fieldDecl "a" ⟨"bool", .BOOL⟩]⟩ : ClassDecl))).length
      = (resFields (⟨"Zed", [.fieldDecl "B" ⟨"int", .INT⟩,
        .fieldDecl "a" ⟨"bool", .BOOL⟩]⟩ : ClassDecl)).length ∧
    (∀ k (hk : k < (resFields (⟨"Zed", [.fieldDecl "B" ⟨"int", .INT⟩,
        .fieldDecl "a" ⟨"bool", .BOOL⟩]⟩ : ClassDecl)).length),
      (fieldLines 0 (resFields (⟨"Zed", [.fieldDecl "B" ⟨"int", .INT⟩,
          .fieldDecl "a" ⟨"bool", .BOOL⟩]⟩ : ClassDecl))).get
        ⟨k, by rw [fieldLines_length]; exact hk⟩ =
        "  " ++ pyLower ((resFields (⟨"Zed", [.fieldDecl "B" ⟨"int", .INT⟩,
          .fieldDecl "a" ⟨"bool", .BOOL⟩]⟩ : ClassDecl)).get ⟨k, hk⟩).1
          ++ " @" ++ toString k ++ " :"
          ++ ((resFields (⟨"Zed", [.fieldDecl "B" ⟨"int", .INT⟩,
          .fieldDecl "a" ⟨"bool", .BOOL⟩]⟩ : ClassDecl)).get ⟨k, hk⟩).2 ++ ";\n")) :=
  ⟨by decide, by decide,
    c8_field_order [] [] ⟨"Zed", [.fieldDecl "B" ⟨"int", .INT⟩,
      .fieldDecl "a" ⟨"bool", .BOOL⟩]⟩ (by decide) (by decide)
      (fun t ht => absurd ht (List.not_mem_nil t))⟩

/-- C2 (counterexample): a nested-generic optional such as
`boost::optional<std::vector<int>>` does NOT fall back to `Text` — its
whole inner spelling is extracted and treated as a class name, so the
classifier returns the synthesized wrapper name. -/
theorem c2_counterexample :
    strContains "boost::optional<std::vector<int>>" "boost::optional<" = true ∧
    (mapFieldTypeToCapnp ⟨"boost::optional<std::vector<int>>", .RECORD⟩ emptyStore).1
      = "Optionalstd::vector<int>" ∧
    (mapFieldTypeToCapnp ⟨"boost::optional<std::vector<int>>", .RECORD⟩ emptyStore).1
      ≠ "Text" :=
  ⟨by decide, by decide, by decide⟩

/-- C2 (amended): when a field's spelling contains the optional-container
syntax but the inner text cannot be extracted (no first `<`, no last `>`,
or the last `>` not after the first `<`), the classifier returns the
fallback text type, leaving the store untouched. -/
theorem c2_malformed_fallback (ft : FieldType) (s : Store)
    (h : strContains ft.spelling "boost::optional<" = true)
    (hp : parseBoostOptional ft.spelling = none) :
    mapFieldTypeToCapnp ft s = ("Text", s) :=
  (case_optMalformed ft s h hp).2

theorem c2_malformed_fallback_witness :
    strContains "boost::optional<int" "boost::optional<" = true ∧
    parseBoostOptional "boost::optional<int" = none ∧
    mapFieldTypeToCapnp ⟨"boost::optional<int", .OTHER⟩ emptyStore
      = ("Text", emptyStore) :=
  ⟨by decide, by decide,
    c2_malformed_fallback ⟨"boost::optional<int", .OTHER⟩ emptyStore
      (by decide) (by decide)⟩

/-- C3 (counterexample): with a valid directory argument but an input that
contains no declarations at all, the program still writes the fixed output
file (containing only the header line) and reports success — it does not
terminate without writing. -/
theorem c3_counterexample :
    mainModel ["generate_capnp.py", "headers"] [] =
      MainResult.wrote "generated.capnp" "@0x1234_5678_ABCD_EF01;\n\n"
        "Wrote schema to generated.capnp" := by
  decide

/-- C3 (amended): whenever a directory argument is supplied the program
writes the fixed output filename and reports success, regardless of
whether any structured declaration with fields was found; the only
diagnostic-and-exit-without-writing path is the missing-argument usage
error. -/
theorem c3_always_writes (argv : List String) (decls : List TopLevel) :
    (2 ≤ argv.length → mainModel argv decls =
      MainResult.wrote "generated.capnp" (capnpText (runStore decls))
        "Wrote schema to generated.capnp") ∧
    (argv.length < 2 → mainModel argv decls = MainResult.usageExit) := by
  constructor <;> intro h <;> unfold mainModel
  · rw [if_neg (by omega)]
  · rw [if_pos h]

theorem c3_always_writes_witness :
    2 ≤ (["generate_capnp.py", "headers"] : List String).length ∧
    mainModel ["generate_capnp.py", "headers"] [] =
      MainResult.wrote "generated.capnp" (capnpText (runStore []))
        "Wrote schema to generated.capnp" :=
  ⟨by decide, (c3_always_writes ["generate_capnp.py", "headers"] []).1 (by decide)⟩

/-- C6: when the extracted inner type of an optional exactly matches one
of the fixed primitive spellings, the classifier returns the corresponding
fixed wrapper name and leaves the store completely unchanged (no stub, no
wrapper entry). -/
theorem c6_primitive_optional (ft : FieldType) (s : Store) (b : String)
    (h : strContains ft.spelling "boost::optional<" = true)
    (hp : parseBoostOptional ft.spelling = some b) :
    (b = "int" → mapFieldTypeToCapnp ft s = ("OptionalInt32", s)) ∧
    (b = "short" → mapFieldTypeToCapnp ft s = ("OptionalShort", s)) ∧
    (b = "float" → mapFieldTypeToCapnp ft s = ("OptionalFloat32", s)) ∧
    (b = "double" → mapFieldTypeToCapnp ft s = ("OptionalFloat64", s)) ∧
    (b = "long long" → mapFieldTypeToCapnp ft s = ("OptionalInt64", s)) := by
  refine ⟨fun hb => ?_, fun hb => ?_, fun hb => ?_, fun hb => ?_, fun hb => ?_⟩ <;>
    subst hb
  · exact (case_optPrim ft s "int" "OptionalInt32" h hp (by decide)).2
  · exact (case_optPrim ft s "short" "OptionalShort" h hp (by decide)).2
  · exact (case_optPrim ft s "float" "OptionalFloat32" h hp (by decide)).2
  · exact (case_optPrim ft s "double" "OptionalFloat64" h hp (by decide)).2
  · exact (case_optPrim ft s "long long" "OptionalInt64" h hp (by decide)).2

theorem c6_primitive_optional_witness :
    strContains "boost::optional<int>" "boost::optional<" = true ∧
    parseBoostOptional "boost::optional<int>" = some "int" ∧
    mapFieldTypeToCapnp ⟨"boost::optional<int>", .OTHER⟩ emptyStore
      = ("OptionalInt32", emptyStore) :=
  ⟨by decide, by decide,
    (c6_primitive_optional ⟨"boost::optional<int>", .OTHER⟩ emptyStore "int"
      (by decide) (by decide)).1 rfl⟩

/-- C7: for a record-kind field in the sequence arm, the element spelling
is matched by substring containment in the fixed priority order (int,
float, double, bool, text), the classifier returns the first matching list
type — `List(Text)` when nothing matches — and the store is unchanged. -/
theorem c7_list_unwrap (ft : FieldType) (s : Store)
    (h : strContains ft.spelling "boost::optional<" = false)
    (hb : mapBuiltin ft.kind = none)
    (hr : ft.kind = TypeKind.RECORD)
    (hbs : strContains ft.spelling "std::basic_string" = false)
    (hv : vectorBranch ft.spelling = true) :
    mapFieldTypeToCapnp ft s =
      (priorityListType (pyStrip (pySlice ft.spelling
        ((pyFind ft.spelling '<').toNat + 1) (pyRFind ft.spelling '>').toNat)), s) := by
  rw [(case_vector ft s h hb hr hbs hv).2, vectorListType_eq_priority]

theorem c7_list_unwrap_witness :
    strContains "std::vector<int>" "boost::optional<" = false ∧
    mapBuiltin TypeKind.RECORD = none ∧
    strContains "std::vector<int>" "std::basic_string" = false ∧
    vectorBranch "std::vector<int>" = true ∧
    mapFieldTypeToCapnp ⟨"std::vector<int>", .RECORD⟩ emptyStore
      = (priorityListType (pyStrip (pySlice "std::vector<int>"
          ((pyFind "std::vector<int>" '<').toNat + 1)
          (pyRFind "std::vector<int>" '>').toNat)), emptyStore) :=
  ⟨by decide, by decide, by decide, by decide,
    c7_list_unwrap ⟨"std::vector<int>", .RECORD⟩ emptyStore
      (by decide) (by decide) rfl (by decide) (by decide)⟩

/-- C9: classifying an optional of an unknown non-primitive type from a
well-formed store registers exactly one stub and exactly one wrapper for
it; classifying the same field again returns the same wrapper name and
leaves the store exactly unchanged. -/
theorem c9_idempotent_registration (ft : FieldType) (s : Store) (b : String)
    (h : strContains ft.spelling "boost::optional<" = true)
    (hp : parseBoostOptional ft.spelling = some b)
    (hm : dlookup b OPTIONAL_TYPE_MAP = none)
    (hc : dlookup b s.classes = none)
    (ho : dlookup ("Optional" ++ b) s.opts = none)
    (hw : WFStore s) :
    (mapFieldTypeToCapnp ft s).1 = "Optional" ++ b ∧
    dlookup b (mapFieldTypeToCapnp ft s).2.classes = some [] ∧
    dlookup ("Optional" ++ b) (mapFieldTypeToCapnp ft s).2.opts = some b ∧
    (dkeys (mapFieldTypeToCapnp ft s).2.classes).count b = 1 ∧
    (dkeys (mapFieldTypeToCapnp ft s).2.opts).count ("Optional" ++ b) = 1 ∧
    mapFieldTypeToCapnp ft (mapFieldTypeToCapnp ft s).2 =
      ("Optional" ++ b, (mapFieldTypeToCapnp ft s).2) := by
  have he := (case_optClass ft s b h hp hm).2
  have hc2 : dlookup b (mapFieldTypeToCapnp ft s).2.classes = some [] := by
    rw [he]
    show dlookup b (registerWrap ("Optional" ++ b) b (registerStub b s)).classes = _
    rw [registerWrap_classes, registerStub_classes, hc, if_pos rfl]
    rfl
  have ho2 : dlookup ("Optional" ++ b) (mapFieldTypeToCapnp ft s).2.opts = some b := by
    rw [he]
    show dlookup ("Optional" ++ b)
      (registerWrap ("Optional" ++ b) b (registerStub b s)).opts = _
    rw [registerWrap_opts, registerStub_opts, ho, if_pos rfl]
    rfl
  have hw2 : WFStore (mapFieldTypeToCapnp ft s).2 := (mapField_spec ft s).2.2.2 hw
  refine ⟨by rw [he], hc2, ho2, ?_, ?_, ?_⟩
  · exact List.count_eq_one_of_mem hw2.1
      ((mem_dkeys b _).mpr (by rw [hc2]; rfl))
  · exact List.count_eq_one_of_mem hw2.2
      ((mem_dkeys ("Optional" ++ b) _).mpr (by rw [ho2]; rfl))
  · have he2 := (case_optClass ft (mapFieldTypeToCapnp ft s).2 b h hp hm).2
    rw [he2, registerStub_skip b _ (by rw [hc2]; rfl),
      registerWrap_skip ("Optional" ++ b) b _ (by rw [ho2]; rfl)]

theorem c9_idempotent_registration_witness :
    strContains "boost::optional<Foo>" "boost::optional<" = true ∧
    parseBoostOptional "boost::optional<Foo>" = some "Foo" ∧
    dlookup "Foo" OPTIONAL_TYPE_MAP = none ∧
    WFStore emptyStore ∧
    ((mapFieldTypeToCapnp ⟨"boost::optional<Foo>", .OTHER⟩ emptyStore).1
        = "Optional" ++ "Foo" ∧
      dlookup "Foo"
        (mapFieldTypeToCapnp ⟨"boost::optional<Foo>", .OTHER⟩ emptyStore).2.classes
        = some [] ∧
      dlookup ("Optional" ++ "Foo")
        (mapFieldTypeToCapnp ⟨"boost::optional<Foo>", .OTHER⟩ emptyStore).2.opts
        = some "Foo" ∧
      (dkeys (mapFieldTypeToCapnp ⟨"boost::optional<Foo>", .OTHER⟩
        emptyStore).2.classes).count "Foo" = 1 ∧
      (dkeys (mapFieldTypeToCapnp ⟨"boost::optional<Foo>", .OTHER⟩
        emptyStore).2.opts).count ("Optional" ++ "Foo") = 1 ∧
      mapFieldTypeToCapnp ⟨"boost::optional<Foo>", .OTHER⟩
          (mapFieldTypeToCapnp ⟨"boost::optional<Foo>", .OTHER⟩ emptyStore).2 =
        ("Optional" ++ "Foo",
          (mapFieldTypeToCapnp ⟨"boost::optional<Foo>", .OTHER⟩ emptyStore).2)) :=
  ⟨by decide, by decide, by decide, ⟨List.nodup_nil, List.nodup_nil⟩,
    c9_idempotent_registration ⟨"boost::optional<Foo>", .OTHER⟩ emptyStore "Foo"
      (by decide) (by decide) (by decide) rfl rfl
      ⟨List.nodup_nil, List.nodup_nil⟩⟩

theorem c4_determinism_witness :
    ([TopLevel.classDecl ⟨"Pt", [.fieldDecl "x" ⟨"int", .INT⟩]⟩,
      TopLevel.classDecl ⟨"Box", [.fieldDecl "w" ⟨"double", .DOUBLE⟩]⟩].Perm
     [TopLevel.classDecl ⟨"Box", [.fieldDecl "w" ⟨"double", .DOUBLE⟩]⟩,
      TopLevel.classDecl ⟨"Pt", [.fieldDecl "x" ⟨"int", .INT⟩]⟩]) ∧
    (classNames [TopLevel.classDecl ⟨"Pt", [.fieldDecl "x" ⟨"int", .INT⟩]⟩,
      TopLevel.classDecl ⟨"Box", [.fieldDecl "w" ⟨"double", .DOUBLE⟩]⟩]).Nodup ∧
    capnpText (runStore
      [TopLevel.classDecl ⟨"Pt", [.fieldDecl "x" ⟨"int", .INT⟩]⟩,
       TopLevel.classDecl ⟨"Box", [.fieldDecl "w" ⟨"double", .DOUBLE⟩]⟩]) =
    capnpText (runStore
      [TopLevel.classDecl ⟨"Box", [.fieldDecl "w" ⟨"double", .DOUBLE⟩]⟩,
       TopLevel.classDecl ⟨"Pt", [.fieldDecl "x" ⟨"int", .INT⟩]⟩]) :=
  ⟨List.Perm.swap _ _ _, by decide,
    c4_determinism _ _ (List.Perm.swap _ _ _) (by decide)⟩

end CapnpGen
